import Mathlib

/-!
Verification of `brewblox_devcon_spark/commands.py` (binary command protocol built on
the python `construct` library, version 2.9 semantics) and of the serial communication
layer described by the repository spec.

The embedding models wire data as `List Nat` (one entry per byte, values 0-255) and
decoded containers as ordered association lists `List (String × Val)`.  Only the
`construct` combinators the source actually uses are modelled: `Const`, `Byte`,
`Int8sb`/`Int8ub` (via `Enum`, whose values the source always coerces with `int(...)`,
so enum values are modelled numerically), the `VariableLengthIDAdapter` (an `Adapter`
over `RepeatUntil`), `Byte[:]` (greedy byte range), `FlagsEnum`, `Padding(1)`,
`Optional` (= `Select(subcon, Pass)`: parse failure backtracks to `None`, build
failure falls back to building nothing), one-element `Sequence`, and `Terminated`.
`Struct` merging with `+` concatenates subcon lists; unnamed subcons parse-and-discard
and build from a `None` value.
-/

namespace Brewblox

/-- A decoded field value: integers (bytes, signed bytes, enum values coerced by
`int(...)`), variable-length id chains, greedy byte payloads, flag containers,
sequence results and nested struct containers. -/
inductive Val where
  | num (i : Int)
  | ids (l : List Nat)
  | bytes (l : List Nat)
  | flags (l : List (String × Bool))
  | vlist (l : List Val)
  | opt (o : Option Val)
  | map (l : List (String × Val))

/-- Primitive subcon layouts used by `commands.py`. -/
inductive Prim where
  | constByte (n : Nat)
  | byte
  | int8sb
  | varlenId
  | greedyBytes
  | flagsEnum (names : List (String × Nat))
  | pad1
  | terminated
  | seqByte1
deriving DecidableEq

/-- A field of a top-level struct: a primitive, the `Optional(Sequence(record))`
object-list combinator of LIST_OBJECTS / LOG_VALUES, or the anonymous
`Optional(OBJECT_ID)` tail of the LOG_VALUES request. -/
inductive FieldCon where
  | prim (p : Prim)
  | optSeqRec (rec : List (Option String × Prim))
  | optIds
deriving DecidableEq

/-- A struct layout: ordered fields, each optionally named (unnamed fields are
`Padding`, `Terminated` or the anonymous optional id). -/
abbrev Layout : Type := List (Option String × FieldCon)

/-- Field name of the opcode constant. -/
def key_opcode : String := "opcode"

/-- Field name of the status byte. -/
def key_errcode : String := "errcode"

/-- Field name of variable-length object ids. -/
def key_id : String := "id"

/-- Field name of object types. -/
def key_type : String := "type"

/-- Field name of object sizes. -/
def key_size : String := "size"

/-- Field name of object data payloads. -/
def key_data : String := "data"

/-- Field name of profile ids. -/
def key_profile_id : String := "profile_id"

/-- Field name of response object lists. -/
def key_objects : String := "objects"

/-- Field name of list terminators. -/
def key_terminator : String := "terminator"

/-- Field name of flag containers. -/
def key_flags : String := "flags"

/-- Field name of the LIST_PROFILES profile list. -/
def key_defined_profiles : String := "defined_profiles"

/-- Flag name in the LOG_VALUES request. -/
def key_id_chain : String := "id_chain"

/-- Flag name in the LOG_VALUES request. -/
def key_system_container : String := "system_container"

/-- Flag name present in both FlagsEnum uses, with value 0. -/
def key_default : String := "default"

/-- Flag name in the RESET request. -/
def key_erase_eeprom : String := "erase_eeprom"

/-- Flag name in the RESET request. -/
def key_hard_reset : String := "hard_reset"

/-- `VariableLengthIDAdapter._encode`: set the nesting flag (bit 7) on every id but
the last.  The source indexes `obj[-1]`, so the empty case never returns normally;
callers guard it (see `varlen_build`). -/
def adapter_encode : List Nat → List Nat
  | [] => []
  | [b] => [b]
  | b :: rest => (b ||| 128) :: adapter_encode rest

/-- `VariableLengthIDAdapter._decode`: clear the nesting flag on every byte. -/
def adapter_decode (l : List Nat) : List Nat := l.map (· &&& 127)

/-- `RepeatUntil(pred, Byte)._build`: write bytes (range-checked) until one matches
the predicate `obj & 0x80 == 0`; building fails if no element ever matches. -/
def repeatUntil_build : List Nat → Option (List Nat)
  | [] => none
  | b :: rest =>
    if 256 ≤ b then none
    else if b &&& 128 == 0 then some [b]
    else (repeatUntil_build rest).map (b :: ·)

/-- `RepeatUntil(pred, Byte)._parse`: read bytes until one has bit 7 clear
(inclusive); fails at end of stream. -/
def repeatUntil_parse : List Nat → Option (List Nat × List Nat)
  | [] => none
  | b :: rest =>
    if b &&& 128 == 0 then some ([b], rest)
    else match repeatUntil_parse rest with
      | some (l, r) => some (b :: l, r)
      | none => none

/-- Building a `VariableLengthIDAdapter` value: `_encode` (IndexError on an empty
list) followed by the `RepeatUntil` writer. -/
def varlen_build (l : List Nat) : Option (List Nat) :=
  match l with
  | [] => none
  | _ => repeatUntil_build (adapter_encode l)

/-- Parsing a `VariableLengthIDAdapter` value: `RepeatUntil` reader then `_decode`. -/
def varlen_parse (bs : List Nat) : Option (List Nat × List Nat) :=
  (repeatUntil_parse bs).map fun lr => (adapter_decode lr.1, lr.2)

/-- `FlagsEnum._encode`: OR together the values of the flags set to true, failing on
a true flag whose name is unknown (false flags are never looked up). -/
def flagsByte (names : List (String × Nat)) : List (String × Bool) → Option Nat
  | [] => some 0
  | (n, b) :: rest =>
    match flagsByte names rest with
    | none => none
    | some acc =>
      if b then
        match List.lookup n names with
        | some v => some (acc ||| v)
        | none => none
      else some acc

/-- Parse one primitive subcon, returning the decoded value and remaining bytes. -/
def parsePrim : Prim → List Nat → Option (Val × List Nat)
  | .constByte n, b :: rest => if b == n then some (.num (n : Int), rest) else none
  | .constByte _, [] => none
  | .byte, b :: rest => some (.num (b : Int), rest)
  | .byte, [] => none
  | .int8sb, b :: rest =>
      some (.num (if b < 128 then (b : Int) else (b : Int) - 256), rest)
  | .int8sb, [] => none
  | .varlenId, bs => (varlen_parse bs).map fun lr => (.ids lr.1, lr.2)
  | .greedyBytes, bs => some (.bytes bs, [])
  | .flagsEnum names, b :: rest =>
      some (.flags (names.map fun nv => (nv.1, b &&& nv.2 == nv.2)), rest)
  | .flagsEnum _, [] => none
  | .pad1, _ :: rest => some (.num 0, rest)
  | .pad1, [] => none
  | .terminated, [] => some (.num 0, [])
  | .terminated, _ :: _ => none
  | .seqByte1, b :: rest => some (.vlist [.num (b : Int)], rest)
  | .seqByte1, [] => none

/-- Build one primitive subcon from an optional value (`none` = the field was
missing from the container, as for unnamed subcons). -/
def buildPrim : Prim → Option Val → Option (List Nat)
  | .constByte n, none => some [n]
  | .constByte n, some (.num i) => if i == (n : Int) then some [n] else none
  | .constByte _, some _ => none
  | .byte, some (.num i) => if 0 ≤ i ∧ i < 256 then some [i.toNat] else none
  | .byte, _ => none
  | .int8sb, some (.num i) =>
      if -128 ≤ i ∧ i < 128 then some [(if 0 ≤ i then i else i + 256).toNat] else none
  | .int8sb, _ => none
  | .varlenId, some (.ids l) => varlen_build l
  | .varlenId, _ => none
  | .greedyBytes, some (.bytes l) => if l.all (· < 256) then some l else none
  | .greedyBytes, _ => none
  | .flagsEnum names, some (.flags fl) => (flagsByte names fl).map ([·])
  | .flagsEnum _, _ => none
  | .pad1, _ => some [0]
  | .terminated, _ => some []
  | .seqByte1, some (.vlist [.num i]) => if 0 ≤ i ∧ i < 256 then some [i.toNat] else none
  | .seqByte1, _ => none

/-- Parse the fields of a record struct (inside `Sequence`), collecting named
results in order. -/
def parseRec : List (Option String × Prim) → List Nat → Option (List (String × Val) × List Nat)
  | [], bs => some ([], bs)
  | (nameOpt, p) :: fs, bs =>
    match parsePrim p bs with
    | none => none
    | some (v, rest) =>
      match parseRec fs rest with
      | none => none
      | some (m, r) =>
        some ((match nameOpt with | some n => (n, v) :: m | none => m), r)

/-- Build the fields of a record struct from a container, looking each named field
up in the (whole) container as the python dict access does. -/
def buildRec : List (Option String × Prim) → List (String × Val) → Option (List Nat)
  | [], _ => some []
  | (nameOpt, p) :: fs, m =>
    match buildPrim p (nameOpt.bind fun n => List.lookup n m) with
    | none => none
    | some bs =>
      match buildRec fs m with
      | none => none
      | some bs2 => some (bs ++ bs2)

/-- Parse one top-level field. `Optional` combinators backtrack to `none` without
consuming when their subcon fails. -/
def parseField : FieldCon → List Nat → Option (Val × List Nat)
  | .prim p, bs => parsePrim p bs
  | .optSeqRec rec, bs =>
    match parseRec rec bs with
    | some (m, r) => some (.opt (some (.vlist [.map m])), r)
    | none => some (.opt none, bs)
  | .optIds, bs =>
    match varlen_parse bs with
    | some (l, r) => some (.opt (some (.map [(key_id, .ids l)])), r)
    | none => some (.opt none, bs)

/-- Build one top-level field.  `Optional` is `Select(subcon, Pass)`: any build
failure of the subcon falls back to `Pass`, emitting no bytes. -/
def buildField : FieldCon → Option Val → Option (List Nat)
  | .prim p, v => buildPrim p v
  | .optSeqRec rec, some (.opt (some (.vlist [.map m]))) =>
    (match buildRec rec m with
     | some bs => some bs
     | none => some [])
  | .optSeqRec _, _ => some []
  | .optIds, _ => some []

/-- Parse a top-level struct layout, collecting named fields in order; trailing
bytes are returned rather than rejected (as `construct`'s `parse` does). -/
def parseLayout : Layout → List Nat → Option (List (String × Val) × List Nat)
  | [], bs => some ([], bs)
  | (nameOpt, f) :: fs, bs =>
    match parseField f bs with
    | none => none
    | some (v, rest) =>
      match parseLayout fs rest with
      | none => none
      | some (m, r) =>
        some ((match nameOpt with | some n => (n, v) :: m | none => m), r)

/-- Build a top-level struct layout from a container. -/
def buildLayout : Layout → List (String × Val) → Option (List Nat)
  | [], _ => some []
  | (nameOpt, f) :: fs, m =>
    match buildField f (nameOpt.bind fun n => List.lookup n m) with
    | none => none
    | some bs =>
      match buildLayout fs m with
      | none => none
      | some bs2 => some (bs ++ bs2)

/-! ### The command registry of `commands.py` -/

/-- The 16 command kinds of `OpcodeEnum`. -/
inductive CommandKind where
  | READ_VALUE
  | WRITE_VALUE
  | CREATE_OBJECT
  | DELETE_OBJECT
  | LIST_OBJECTS
  | FREE_SLOT
  | CREATE_PROFILE
  | DELETE_PROFILE
  | ACTIVATE_PROFILE
  | LOG_VALUES
  | RESET
  | FREE_SLOT_ROOT
  | UNUSED
  | LIST_PROFILES
  | READ_SYSTEM_VALUE
  | WRITE_SYSTEM_VALUE
deriving DecidableEq, Fintype

/-- The name of a command kind, as used for the `OpcodeEnum` labels and the
`COMMAND_DEFS` keys. -/
def kindName : CommandKind → String
  | .READ_VALUE => "READ_VALUE"
  | .WRITE_VALUE => "WRITE_VALUE"
  | .CREATE_OBJECT => "CREATE_OBJECT"
  | .DELETE_OBJECT => "DELETE_OBJECT"
  | .LIST_OBJECTS => "LIST_OBJECTS"
  | .FREE_SLOT => "FREE_SLOT"
  | .CREATE_PROFILE => "CREATE_PROFILE"
  | .DELETE_PROFILE => "DELETE_PROFILE"
  | .ACTIVATE_PROFILE => "ACTIVATE_PROFILE"
  | .LOG_VALUES => "LOG_VALUES"
  | .RESET => "RESET"
  | .FREE_SLOT_ROOT => "FREE_SLOT_ROOT"
  | .UNUSED => "UNUSED"
  | .LIST_PROFILES => "LIST_PROFILES"
  | .READ_SYSTEM_VALUE => "READ_SYSTEM_VALUE"
  | .WRITE_SYSTEM_VALUE => "WRITE_SYSTEM_VALUE"

/-- `OpcodeEnum`: label/value pairs (opcodes 1-16, contiguous). -/
def OpcodeEnum : List (String × Nat) :=
  [(kindName .READ_VALUE, 1),
   (kindName .WRITE_VALUE, 2),
   (kindName .CREATE_OBJECT, 3),
   (kindName .DELETE_OBJECT, 4),
   (kindName .LIST_OBJECTS, 5),
   (kindName .FREE_SLOT, 6),
   (kindName .CREATE_PROFILE, 7),
   (kindName .DELETE_PROFILE, 8),
   (kindName .ACTIVATE_PROFILE, 9),
   (kindName .LOG_VALUES, 10),
   (kindName .RESET, 11),
   (kindName .FREE_SLOT_ROOT, 12),
   (kindName .UNUSED, 13),
   (kindName .LIST_PROFILES, 14),
   (kindName .READ_SYSTEM_VALUE, 15),
   (kindName .WRITE_SYSTEM_VALUE, 16)]

/-- `OpcodeEnum.encmapping`: label to opcode byte (total on the 16 labels; the
default only pads totality, every use in the source is a defined label). -/
def opcode_encmapping (name : String) : Nat := (List.lookup name OpcodeEnum).getD 0

/-- `OpcodeEnum` decoding: opcode byte back to label. -/
def opcode_decmapping (b : Nat) : Option String :=
  (OpcodeEnum.find? fun p => p.2 == b).map fun p => p.1

/-- `CommandDefinition`: the stored opcode label, plus request layout
(`opcode_struct + request`) and response layout (`status + response`). -/
structure CommandDefinition where
  opcode : String
  request : Layout
  response : Layout
deriving DecidableEq

/-- `CommandDefinition.__init__`: prepend the opcode `Const` to the request and the
`errcode` status byte to the response. -/
def define_command (opcode : String) (request : Layout) (response : Layout) :
    CommandDefinition :=
  ⟨opcode,
   (some key_opcode, .prim (.constByte (opcode_encmapping opcode))) :: request,
   (some key_errcode, .prim .int8sb) :: response⟩

/-- Generic `OBJECT_ID` fields at record level (inside `Sequence`). -/
def OBJECT_ID_P : List (Option String × Prim) := [(some key_id, .varlenId)]

/-- Generic `OBJECT_TYPE` fields at record level. -/
def OBJECT_TYPE_P : List (Option String × Prim) := [(some key_type, .byte)]

/-- Generic `OBJECT_SIZE` fields at record level. -/
def OBJECT_SIZE_P : List (Option String × Prim) := [(some key_size, .byte)]

/-- Generic `OBJECT_DATA` fields at record level. -/
def OBJECT_DATA_P : List (Option String × Prim) := [(some key_data, .greedyBytes)]

/-- Lift record-level fields to top-level struct fields. -/
def liftFields (l : List (Option String × Prim)) : Layout :=
  l.map fun x => (x.1, .prim x.2)

/-- `OBJECT_ID = Struct('id' / VariableLengthIDAdapter())`. -/
def OBJECT_ID : Layout := liftFields OBJECT_ID_P

/-- `OBJECT_TYPE = Struct('type' / Byte)`. -/
def OBJECT_TYPE : Layout := liftFields OBJECT_TYPE_P

/-- `OBJECT_SIZE = Struct('size' / Byte)`. -/
def OBJECT_SIZE : Layout := liftFields OBJECT_SIZE_P

/-- `OBJECT_DATA = Struct('data' / Byte[:])`. -/
def OBJECT_DATA : Layout := liftFields OBJECT_DATA_P

/-- `PROFILE_ID = Struct('profile_id' / Int8sb)`. -/
def PROFILE_ID : Layout := [(some key_profile_id, .prim .int8sb)]

/-- The record of the LIST_OBJECTS response list:
`OBJECT_ID + OBJECT_TYPE + OBJECT_SIZE + OBJECT_DATA`. -/
def listObjectsRecord : List (Option String × Prim) :=
  OBJECT_ID_P ++ OBJECT_TYPE_P ++ OBJECT_SIZE_P ++ OBJECT_DATA_P

/-- The record of the LOG_VALUES response list:
`Padding(1) + OBJECT_ID + OBJECT_TYPE + OBJECT_SIZE + OBJECT_DATA`. -/
def logValuesRecord : List (Option String × Prim) :=
  (none, .pad1) :: listObjectsRecord

/-- The LIST_OBJECTS response struct:
`Padding(1), 'objects' / Optional(Sequence(record)), 'terminator' / Const(0x00), Terminated`. -/
def listObjectsResponse : Layout :=
  [(none, .prim .pad1),
   (some key_objects, .optSeqRec listObjectsRecord),
   (some key_terminator, .prim (.constByte 0)),
   (none, .prim .terminated)]

/-- The LOG_VALUES response struct. -/
def logValuesResponse : Layout :=
  [(some key_objects, .optSeqRec logValuesRecord),
   (some key_terminator, .prim (.constByte 0)),
   (none, .prim .terminated)]

/-- The LOG_VALUES request fields: a flags byte merged with an anonymous
`Optional(OBJECT_ID)`. -/
def logValuesRequest : Layout :=
  [(some key_flags, .prim (.flagsEnum [(key_id_chain, 1), (key_system_container, 2), (key_default, 0)])),
   (none, .optIds)]

/-- The RESET request fields. -/
def resetRequest : Layout :=
  [(some key_flags, .prim (.flagsEnum [(key_erase_eeprom, 1), (key_hard_reset, 2), (key_default, 0)]))]

/-- The LIST_PROFILES response fields:
`PROFILE_ID + Struct('defined_profiles' / Sequence(Int8ub))`. -/
def listProfilesResponse : Layout :=
  PROFILE_ID ++ [(some key_defined_profiles, .prim .seqByte1)]

/-- Command definition for READ_VALUE. -/
def def_READ_VALUE : CommandDefinition :=
  define_command (kindName .READ_VALUE)
    (OBJECT_ID ++ OBJECT_TYPE ++ OBJECT_SIZE)
    (OBJECT_TYPE ++ OBJECT_SIZE ++ OBJECT_DATA)

/-- Command definition for WRITE_VALUE. -/
def def_WRITE_VALUE : CommandDefinition :=
  define_command (kindName .WRITE_VALUE)
    (OBJECT_ID ++ OBJECT_TYPE ++ OBJECT_SIZE ++ OBJECT_DATA)
    (OBJECT_TYPE ++ OBJECT_SIZE ++ OBJECT_DATA)

/-- Command definition for CREATE_OBJECT. -/
def def_CREATE_OBJECT : CommandDefinition :=
  define_command (kindName .CREATE_OBJECT)
    (OBJECT_TYPE ++ OBJECT_SIZE ++ OBJECT_DATA)
    []

/-- Command definition for DELETE_OBJECT. -/
def def_DELETE_OBJECT : CommandDefinition :=
  define_command (kindName .DELETE_OBJECT) OBJECT_ID []

/-- Command definition for LIST_OBJECTS. -/
def def_LIST_OBJECTS : CommandDefinition :=
  define_command (kindName .LIST_OBJECTS) PROFILE_ID listObjectsResponse

/-- Command definition for FREE_SLOT. -/
def def_FREE_SLOT : CommandDefinition :=
  define_command (kindName .FREE_SLOT) OBJECT_ID []

/-- Command definition for CREATE_PROFILE. -/
def def_CREATE_PROFILE : CommandDefinition :=
  define_command (kindName .CREATE_PROFILE) [] PROFILE_ID

/-- Command definition for DELETE_PROFILE. -/
def def_DELETE_PROFILE : CommandDefinition :=
  define_command (kindName .DELETE_PROFILE) PROFILE_ID []

/-- Command definition for ACTIVATE_PROFILE. -/
def def_ACTIVATE_PROFILE : CommandDefinition :=
  define_command (kindName .ACTIVATE_PROFILE) PROFILE_ID []

/-- Command definition for LOG_VALUES. -/
def def_LOG_VALUES : CommandDefinition :=
  define_command (kindName .LOG_VALUES) logValuesRequest logValuesResponse

/-- Command definition for RESET. -/
def def_RESET : CommandDefinition :=
  define_command (kindName .RESET) resetRequest []

/-- Command definition for FREE_SLOT_ROOT. -/
def def_FREE_SLOT_ROOT : CommandDefinition :=
  define_command (kindName .FREE_SLOT_ROOT) OBJECT_ID []

/-- Command definition for LIST_PROFILES. -/
def def_LIST_PROFILES : CommandDefinition :=
  define_command (kindName .LIST_PROFILES) [] listProfilesResponse

/-- Command definition for READ_SYSTEM_VALUE. -/
def def_READ_SYSTEM_VALUE : CommandDefinition :=
  define_command (kindName .READ_SYSTEM_VALUE)
    (OBJECT_ID ++ OBJECT_TYPE ++ OBJECT_SIZE)
    (OBJECT_TYPE ++ OBJECT_SIZE ++ OBJECT_DATA)

/-- Command definition for WRITE_SYSTEM_VALUE. -/
def def_WRITE_SYSTEM_VALUE : CommandDefinition :=
  define_command (kindName .WRITE_SYSTEM_VALUE)
    (OBJECT_ID ++ OBJECT_TYPE ++ OBJECT_SIZE ++ OBJECT_DATA)
    (OBJECT_TYPE ++ OBJECT_SIZE ++ OBJECT_DATA)

/-- `COMMAND_DEFS`: the registry dict, keyed by opcode label, in the insertion
order of the fifteen `_define_command` calls of the source (UNUSED has none). -/
def COMMAND_DEFS : List (String × CommandDefinition) :=
  [(kindName .READ_VALUE, def_READ_VALUE),
   (kindName .WRITE_VALUE, def_WRITE_VALUE),
   (kindName .CREATE_OBJECT, def_CREATE_OBJECT),
   (kindName .DELETE_OBJECT, def_DELETE_OBJECT),
   (kindName .LIST_OBJECTS, def_LIST_OBJECTS),
   (kindName .FREE_SLOT, def_FREE_SLOT),
   (kindName .CREATE_PROFILE, def_CREATE_PROFILE),
   (kindName .DELETE_PROFILE, def_DELETE_PROFILE),
   (kindName .ACTIVATE_PROFILE, def_ACTIVATE_PROFILE),
   (kindName .LOG_VALUES, def_LOG_VALUES),
   (kindName .RESET, def_RESET),
   (kindName .FREE_SLOT_ROOT, def_FREE_SLOT_ROOT),
   (kindName .LIST_PROFILES, def_LIST_PROFILES),
   (kindName .READ_SYSTEM_VALUE, def_READ_SYSTEM_VALUE),
   (kindName .WRITE_SYSTEM_VALUE, def_WRITE_SYSTEM_VALUE)]

/-! ### The `Command` object -/

/-- ASCII uppercasing of one character, as `str.upper` acts on the ASCII names
used here. -/
def upperChar (c : Char) : Char :=
  if 'a' ≤ c ∧ c ≤ 'z' then Char.ofNat (c.toNat - 32) else c

/-- ASCII uppercasing of a string. -/
def upperStr (s : String) : String := ⟨s.data.map upperChar⟩

/-- `Command.from_decoded`: look the uppercased kind name up in `COMMAND_DEFS`
(`None` models the raised KeyError). -/
def from_decoded (command_name : String) : Option CommandDefinition :=
  List.lookup (upperStr command_name) COMMAND_DEFS

/-- `OpcodeEnum.parse(request)`: read the first byte and decode it to a label. -/
def opcode_parse (request : List Nat) : Option String :=
  match request with
  | b :: _ => opcode_decmapping b
  | [] => none

/-- `Command.from_encoded`: identify the definition from the request's opcode
byte. -/
def from_encoded (request : List Nat) : Option CommandDefinition :=
  (opcode_parse request).bind fun n => List.lookup n COMMAND_DEFS

/-- `Command.encoded_request`: build the request bytes from the decoded fields. -/
def encoded_request (d : CommandDefinition) (decoded : List (String × Val)) :
    Option (List Nat) :=
  buildLayout d.request decoded

/-- `Command.encoded_response`: build the response bytes from the decoded fields. -/
def encoded_response (d : CommandDefinition) (decoded : List (String × Val)) :
    Option (List Nat) :=
  buildLayout d.response decoded

/-- `Command.decoded_request`: parse the request bytes. -/
def decoded_request (d : CommandDefinition) (bs : List Nat) :
    Option (List (String × Val) × List Nat) :=
  parseLayout d.request bs

/-- Result of `Command.decoded_response`: a raised parse error, a
`CommandException` carrying the kind label and numeric status code, or the parsed
response container. -/
inductive DecodedResponse where
  | parseError
  | failure (opcode : String) (code : Int)
  | ok (fields : List (String × Val))

/-- `Command.decoded_response`: `_parse_error` reads the signed status byte first;
if negative it yields a `CommandException` with the kind and code and the response
fields are never parsed; otherwise the full response layout is parsed. -/
def decoded_response (d : CommandDefinition) (bs : List Nat) : DecodedResponse :=
  match bs with
  | [] => .parseError
  | b :: _ =>
    let code : Int := if b < 128 then (b : Int) else (b : Int) - 256
    if code < 0 then .failure d.opcode code
    else
      match parseLayout d.response bs with
      | some (m, _) => .ok m
      | none => .parseError

/-- A lowercase spelling of READ_VALUE. -/
def lowercase_read_value : String := "read_value"

/-- A name whose uppercase form matches no command kind. -/
def garbage_name : String := "bogus"

/-! ### The Stream Framer, Conduit and device discovery

`communication.py` is not part of the sources provided, only its test suite is,
so the following definitions are modelled from the spec of the serial layer
(sections 4.4, 4.5 and 8 of the specification). -/

/-- Modelled from the spec: the inner scan of an event tag. After an opening
run `<!`, collect characters until the closing `>`; a `<` or the end of the
buffer means the candidate is not (yet) a complete match. -/
def scanInner : List Char → Option (List Char × List Char)
  | [] => none
  | c :: rest =>
    if c = '>' then some ([], rest)
    else if c = '<' then none
    else (scanInner rest).map fun ir => (c :: ir.1, ir.2)

/-- Modelled from the spec: find the leftmost complete event match
`<!` + chars other than `<` + `>`, returning the text before the match, the
inner text, and the text after the match. -/
def findEvent : List Char → Option (List Char × List Char × List Char)
  | [] => none
  | c :: rest =>
    if c = '<' then
      match rest with
      | '!' :: rest2 =>
        match scanInner rest2 with
        | some (inner, after) => some ([], inner, after)
        | none => (findEvent rest).map fun r => (c :: r.1, r.2.1, r.2.2)
      | _ => (findEvent rest).map fun r => (c :: r.1, r.2.1, r.2.2)
    else (findEvent rest).map fun r => (c :: r.1, r.2.1, r.2.2)

/-- Modelled from the spec: the event pass - repeatedly extract the leftmost
complete event, splice the surrounding text together, and rescan, until no
complete event remains.  Each extraction removes at least three characters, so
the buffer length bounds the rounds. -/
def eventPass : Nat → List Char → List String × List Char
  | 0, buf => ([], buf)
  | fuel + 1, buf =>
    match findEvent buf with
    | none => ([], buf)
    | some (before, inner, after) =>
      let r := eventPass fuel (before ++ after)
      (String.mk inner :: r.1, r.2)

/-- Modelled from the spec: scan a decorative tag `<` + chars other than
`<`/`>` + `>`, returning the rest after the closing `>`. -/
def scanTag : List Char → Option (List Char)
  | [] => none
  | c :: rest =>
    if c = '>' then some rest
    else if c = '<' then none
    else scanTag rest

/-- Modelled from the spec: strip every decorative tag from a completed line,
scanning left to right. -/
def stripTags : Nat → List Char → List Char
  | 0, l => l
  | _ + 1, [] => []
  | fuel + 1, c :: rest =>
    if c = '<' then
      match scanTag rest with
      | some after => stripTags fuel after
      | none => c :: stripTags fuel rest
    else c :: stripTags fuel rest

/-- Modelled from the spec: split the buffer at the first newline, returning
the line (newline excluded) and the rest. -/
def splitLine : List Char → Option (List Char × List Char)
  | [] => none
  | c :: rest =>
    if c = '\n' then some ([], rest)
    else (splitLine rest).map fun lr => (c :: lr.1, lr.2)

/-- Modelled from the spec: the line pass - for each complete line, strip the
remaining tags and emit the line if anything is left; a trailing partial line
stays buffered. -/
def linePass : Nat → List Char → List String × List Char
  | 0, buf => ([], buf)
  | fuel + 1, buf =>
    match splitLine buf with
    | none => ([], buf)
    | some (line, rest) =>
      let stripped := stripTags line.length line
      let r := linePass fuel rest
      (if stripped.isEmpty then r.1 else String.mk stripped :: r.1, r.2)

/-- Modelled from the spec: the Stream Framer state - the growing buffer and
the events and data lines emitted so far, in order. -/
structure ProtocolState where
  buffer : List Char
  events : List String
  data : List String

/-- Modelled from the spec: `SparkProtocol.data_received` - append the chunk,
run the event pass to a fixed point, then the line pass. -/
def data_received (st : ProtocolState) (chunk : List Char) : ProtocolState :=
  let buf := st.buffer ++ chunk
  let ev := eventPass buf.length buf
  let ln := linePass ev.2.length ev.2
  ⟨ln.2, st.events ++ ev.1, st.data ++ ln.1⟩

/-- Feed a list of chunks to a fresh protocol. -/
def runChunks (chunks : List String) : ProtocolState :=
  chunks.foldl (fun st c => data_received st c.data) ⟨[], [], []⟩

/-- The ten serial data chunks of the framing property (the test fixture sends
the same bytes with the first two chunks merged into one; the buffer
accumulates, so the grouping does not change the outcome). -/
def serial_data : List String :=
  ["<add>0A<id>00<OneWir",
   "<!connected:sen",
   "sor>eTem<!s",
   "paced message>pSensor>01<address>28C80E",
   "9A0300009C\n",
   "34234<!connected:mess<!interrupt>",
   "age>\n",
   "<!interrupted! ",
   "message>",
   "<invalid! event!>"]

/-- The events the framing test expects, in order. -/
def expected_events : List String :=
  ["connected:sensor",
   "spaced message",
   "interrupt",
   "connected:message",
   "interrupted! message"]

/-- The data lines the framing test expects, in order. -/
def expected_data : List String :=
  ["0A000128C80E9A0300009C",
   "34234"]

/-- Modelled from the spec: the Serial Conduit - unbound initially, bound
after `bind`, unbound after `close`; `write` asserts the bound state. -/
structure SparkConduit where
  is_bound : Bool

/-- A conduit that has never been bound. -/
def SparkConduit.init : SparkConduit := ⟨false⟩

/-- Modelled from the spec: `bind` acquires the transport. -/
def SparkConduit.bind (_ : SparkConduit) : SparkConduit := ⟨true⟩

/-- Modelled from the spec: `close` releases the transport (a no-op when
already unbound). -/
def SparkConduit.close (_ : SparkConduit) : SparkConduit := ⟨false⟩

/-- Result of `SparkConduit.write`: the failed contract check (the
AssertionError of the test), or the bytes sent. -/
inductive WriteResult where
  | assertionError
  | written (bytes : List Char)

/-- Modelled from the spec: `write` is permitted only while bound - calling it
while unbound fails the contract check - and sends the text followed by one
newline. -/
def SparkConduit.write (c : SparkConduit) (text : String) : WriteResult :=
  if c.is_bound then .written (text.data ++ ['\n']) else .assertionError

/-- Modelled from the spec: a serial port as the discovery code sees it. -/
structure PortInfo where
  device : String
  description : String
  hwid : String
  serial_number : String

/-- Result of `detect_device`: a device path, or the raised ValueError. -/
inductive DetectResult where
  | found (device : String)
  | valueError

/-- Modelled from the spec: `detect_device` - an explicitly given device path
is returned unchanged; otherwise the recognized ports are filtered by serial
number (all pass when none is given), failing when the filtered set is empty
and returning the first match's device path otherwise. -/
def detect_device (ports : List PortInfo) (device : Option String)
    (serial_number : Option String) : DetectResult :=
  match device with
  | some d => .found d
  | none =>
    match ports.filter fun p =>
        match serial_number with
        | some sn => p.serial_number == sn
        | none => true with
    | [] => .valueError
    | p :: _ => .found p.device

/-- The explicit device path of the discovery test. -/
def dave : String := "dave"

/-- The serial number selecting the second recognized port. -/
def serial_4321 : String := "4321"

/-- The first recognized port of the discovery test. -/
def port_1234 : PortInfo := ⟨"/dev/ttyX", "Electron", "USB VID:PID=2d04:c00a", "1234"⟩

/-- The second recognized port of the discovery test. -/
def port_4321 : PortInfo := ⟨"/dev/ttyX", "Electron", "USB VID:PID=2d04:c00a", "4321"⟩

/-- The recognized ports of the discovery test. -/
def grep_ports : List PortInfo := [port_1234, port_4321]

/-- A conforming LIST_OBJECTS response container carrying one object record. -/
def listObjectsOneRecord : List (String × Val) :=
  [(key_errcode, .num 0),
   (key_objects, .opt (some (.vlist [.map [(key_id, .ids [1]), (key_type, .num 2),
     (key_size, .num 1), (key_data, .bytes [5])]]))),
   (key_terminator, .num 0)]

/-- A sample conforming READ_VALUE request container. -/
def readValueRequestSample : List (String × Val) :=
  [(key_opcode, .num 1), (key_id, .ids [3, 4]), (key_type, .num 6), (key_size, .num 2)]

/-- A sample conforming READ_VALUE response container. -/
def readValueResponseSample : List (String × Val) :=
  [(key_errcode, .num 0), (key_type, .num 6), (key_size, .num 2), (key_data, .bytes [7, 8])]

/-! ### Conformance of decoded containers to layouts

These Boolean predicates characterise the field mappings on which the spec's
round-trip property quantifies: the containers shaped exactly as the layout's
parse output, with every value in the range its subcon can write. -/

/-- Does a value conform to a primitive subcon (in a named position)?  For the
`FlagsEnum` subcon, only the two flag tables occurring in the source
(value pattern 1 / 2 / 0) are characterised; the `default` flag, whose mask is
0, must be `true` because parsing always reports it set. -/
def conformsPrim : Prim → Val → Bool
  | .constByte n, .num i => i == Int.ofNat n
  | .byte, .num i => decide (0 ≤ i) && decide (i < 256)
  | .int8sb, .num i => decide (-128 ≤ i) && decide (i < 128)
  | .varlenId, .ids l => !l.isEmpty && l.all (· < 128)
  | .greedyBytes, .bytes l => l.all (· < 256)
  | .flagsEnum names, .flags fl =>
    (match fl with
     | [(m1, _), (m2, _), (m3, b3)] =>
       (decide (names = [(key_id_chain, 1), (key_system_container, 2), (key_default, 0)])
         || decide (names = [(key_erase_eeprom, 1), (key_hard_reset, 2), (key_default, 0)]))
       && decide (names.map Prod.fst = [m1, m2, m3]) && b3
     | _ => false)
  | .seqByte1, .vlist [.num i] => decide (0 ≤ i) && decide (i < 256)
  | _, _ => false

/-- May a primitive appear unnamed (parse discards its value, build receives
`None` and still succeeds)? -/
def anonPrimOK : Prim → Bool
  | .pad1 => true
  | .terminated => true
  | _ => false

/-- Conformance of a container to a record's field list (shape-exact, in field
order, unnamed fields contributing nothing). -/
def conformsFields : List (Option String × Prim) → List (String × Val) → Bool
  | [], m => m.isEmpty
  | (some n, p) :: fs, (n2, v) :: m => n2 == n && conformsPrim p v && conformsFields fs m
  | (some _, _) :: _, [] => false
  | (none, p) :: fs, m => anonPrimOK p && conformsFields fs m

/-- Conformance of a value to one top-level field. -/
def conformsField : FieldCon → Val → Bool
  | .prim p, v => conformsPrim p v
  | .optSeqRec _, .opt none => true
  | .optSeqRec rec, .opt (some (.vlist [.map m])) => conformsFields rec m
  | .optSeqRec _, _ => false
  | .optIds, _ => false

/-- May a top-level field appear unnamed? -/
def anonFieldOK : FieldCon → Bool
  | .prim p => anonPrimOK p
  | .optIds => true
  | .optSeqRec _ => false

/-- Conformance of a container to a top-level layout. -/
def conformsLayout : Layout → List (String × Val) → Bool
  | [], m => m.isEmpty
  | (some n, f) :: fs, (n2, v) :: m => n2 == n && conformsField f v && conformsLayout fs m
  | (some _, _) :: _, [] => false
  | (none, f) :: fs, m => anonFieldOK f && conformsLayout fs m

/-! ### Layouts whose build and parse are exact mutual inverses

A layout is `good` when every field before the last parses independently of
what follows it (so neither the greedy byte range nor `Terminated` nor an
`Optional` may sit in the middle) and field names are distinct.  All request
layouts and all non-list response layouts of the registry are good; the
LIST_OBJECTS and LOG_VALUES responses are not (their greedy record data eats
the list terminator), which is exactly where the round-trip claim fails. -/

/-- Primitives that consume a determined prefix on parse. -/
def prtPrim : Prim → Bool
  | .greedyBytes => false
  | .terminated => false
  | _ => true

/-- Fields that consume a determined prefix on parse. -/
def prtField : FieldCon → Bool
  | .prim p => prtPrim p
  | _ => false

/-- Fields usable in final position for an exact round trip. -/
def lastField : FieldCon → Bool
  | .optSeqRec _ => false
  | _ => true

/-- The named fields of a layout. -/
def fieldNames (fs : Layout) : List String := fs.filterMap fun x => x.1

/-- Are all names distinct? -/
def distinctNames : List String → Bool
  | [] => true
  | n :: rest => decide (n ∉ rest) && distinctNames rest

/-- Every field but the last parses a determined prefix; the last may be greedy. -/
def goodTail : Layout → Bool
  | [] => true
  | [f] => lastField f.2
  | f :: fs => prtField f.2 && goodTail fs

/-- A layout with distinct names and round-trip-safe field order. -/
def goodLayout (fs : Layout) : Bool := distinctNames (fieldNames fs) && goodTail fs

/-- The status entry of a response container, when present and non-negative. -/
def statusNonNeg (m : List (String × Val)) : Bool :=
  match List.lookup key_errcode m with
  | some (.num i) => decide (0 ≤ i)
  | _ => false

/-- For the two list-response kinds, does the container carry an absent object
list?  (True for every other kind.) -/
def emptyListObjects (k : CommandKind) (m : List (String × Val)) : Bool :=
  match k with
  | .LIST_OBJECTS =>
    (match List.lookup key_objects m with
     | some (.opt none) => true
     | _ => false)
  | .LOG_VALUES =>
    (match List.lookup key_objects m with
     | some (.opt none) => true
     | _ => false)
  | _ => true

/-! ### Arithmetic facts about the 7-bit id encoding -/

theorem le_lor_self (x y : Nat) : x ≤ x ||| y := by
  have h1 : x &&& (x ||| y) = x := by
    apply Nat.eq_of_testBit_eq
    intro i
    rw [Nat.testBit_land, Nat.testBit_lor]
    cases hx : x.testBit i <;> simp [hx]
  calc x = x &&& (x ||| y) := h1.symm
    _ ≤ x ||| y := Nat.and_le_right

theorem lor128_flag (x : Nat) : ((x ||| 128) &&& 128 == 0) = false := by
  have ht : ((x ||| 128) &&& 128).testBit 7 = true := by
    rw [Nat.testBit_land, Nat.testBit_lor]
    have h7 : Nat.testBit 128 7 = true := by decide
    simp [h7]
  simp only [beq_eq_false_iff_ne, ne_eq]
  intro h0
  rw [h0] at ht
  simp [Nat.zero_testBit] at ht

theorem lor128_mask (x : Nat) : (x ||| 128) &&& 127 = x &&& 127 := by
  apply Nat.eq_of_testBit_eq
  intro i
  rw [Nat.testBit_land, Nat.testBit_lor, Nat.testBit_land]
  have h128 : Nat.testBit 128 i = decide (7 = i) := by
    have h : (128 : Nat) = 2 ^ 7 := by norm_num
    rw [h, Nat.testBit_two_pow]
  have h127 : Nat.testBit 127 i = decide (i < 7) := by
    have h : (127 : Nat) = 2 ^ 7 - 1 := by norm_num
    rw [h, Nat.testBit_two_pow_sub_one]
  rw [h128, h127]
  by_cases h : i < 7
  · simp [h, Nat.ne_of_gt h]
  · simp [h]

theorem lowbit_mask (b : Nat) (h : b < 128) :
    ((b &&& 128 == 0) = true) ∧ b &&& 127 = b := by
  interval_cases b <;> decide

theorem highbit_flag (b : Nat) (h1 : 128 ≤ b) (h2 : b < 256) :
    (b &&& 128 == 0) = false := by
  interval_cases b <;> decide

theorem lor128_lt (b : Nat) (h : b < 256) : b ||| 128 < 256 := by
  have h1 : b < 2 ^ 8 := by omega
  have h2 : (128 : Nat) < 2 ^ 8 := by norm_num
  have := Nat.or_lt_two_pow h1 h2
  simpa using this

/-! ### Round-trip facts for the VariableLengthIDAdapter -/

/-- The `RepeatUntil` writer accepts exactly the adapter's output when every id is
a byte and the final id has the nesting flag clear. -/
theorem adapter_encode_build (l : List Nat) (hne : l ≠ []) (hall : ∀ b ∈ l, b < 256)
    (hlast : ∀ b, l.getLast? = some b → b < 128) :
    repeatUntil_build (adapter_encode l) = some (adapter_encode l) := by
  match l with
  | [] => exact absurd rfl hne
  | [b] =>
    have hb : b < 128 := hlast b rfl
    simp only [adapter_encode, repeatUntil_build]
    rw [if_neg (by omega), if_pos (lowbit_mask b hb).1]
  | b :: c :: t =>
    have hb : b < 256 := hall b (by simp)
    have ih := adapter_encode_build (c :: t) (by simp)
      (fun x hx => hall x (List.mem_cons_of_mem b hx))
      (fun x hx => hlast x (by rw [List.getLast?_cons_cons]; exact hx))
    simp only [adapter_encode, repeatUntil_build]
    rw [if_neg (by have := lor128_lt b hb; omega), if_neg (by simp [lor128_flag b])]
    rw [ih]
    rfl

/-- The `RepeatUntil` reader consumes exactly the adapter's output. -/
theorem adapter_encode_parse (l : List Nat) (hne : l ≠ [])
    (hlast : ∀ b, l.getLast? = some b → b < 128) (rest : List Nat) :
    repeatUntil_parse (adapter_encode l ++ rest) = some (adapter_encode l, rest) := by
  match l with
  | [] => exact absurd rfl hne
  | [b] =>
    have hb : b < 128 := hlast b rfl
    simp only [adapter_encode, List.cons_append, List.nil_append, repeatUntil_parse]
    rw [if_pos (lowbit_mask b hb).1]
    rfl
  | b :: c :: t =>
    have ih := adapter_encode_parse (c :: t) (by simp)
      (fun x hx => hlast x (by rw [List.getLast?_cons_cons]; exact hx)) rest
    simp only [adapter_encode, List.cons_append, repeatUntil_parse]
    rw [if_neg (by simp [lor128_flag b])]
    simp only [List.append_eq] at ih ⊢
    rw [ih]

/-- Clearing the nesting flags undoes setting them, modulo masking to 7 bits. -/
theorem adapter_decode_encode (l : List Nat) :
    adapter_decode (adapter_encode l) = l.map (· &&& 127) := by
  match l with
  | [] => rfl
  | [b] => rfl
  | b :: c :: t =>
    have ih := adapter_decode_encode (c :: t)
    unfold adapter_decode at ih ⊢
    show ((b ||| 128) :: adapter_encode (c :: t)).map (· &&& 127) = (b :: c :: t).map (· &&& 127)
    rw [List.map_cons, List.map_cons, lor128_mask b, ih]

/-- Membership of the value reported by `getLast?`. -/
theorem mem_of_getLast?_eq (l : List Nat) (b : Nat) (h : l.getLast? = some b) : b ∈ l := by
  rcases List.mem_getLast?_eq_getLast (show b ∈ l.getLast? from h) with ⟨hne, hb⟩
  rw [hb]
  exact List.getLast_mem hne

/-- Full build/parse behaviour of the adapter on byte-valued ids with a
flag-clear final id: build emits the flagged bytes, parse recovers the masked
ids. -/
theorem varlen_build_parse (l : List Nat) (hne : l ≠ []) (hall : ∀ b ∈ l, b < 256)
    (hlast : ∀ b, l.getLast? = some b → b < 128) (rest : List Nat) :
    varlen_build l = some (adapter_encode l) ∧
      varlen_parse (adapter_encode l ++ rest) = some (l.map (· &&& 127), rest) := by
  constructor
  · match l, hne with
    | b :: t, _ =>
      show repeatUntil_build (adapter_encode (b :: t)) = _
      exact adapter_encode_build (b :: t) (by simp) hall hlast
  · unfold varlen_parse
    rw [adapter_encode_parse l hne hlast rest]
    simp [adapter_decode_encode l]

/-- Exact round trip on conforming ids (all in 0-127). -/
theorem varlen_roundTrip (l : List Nat) (hne : l ≠ []) (h : ∀ b ∈ l, b < 128)
    (rest : List Nat) :
    varlen_build l = some (adapter_encode l) ∧
      varlen_parse (adapter_encode l ++ rest) = some (l, rest) := by
  have hmask : l.map (· &&& 127) = l := by
    have h1 : l.map (· &&& 127) = l.map id :=
      List.map_congr_left fun b hb => (lowbit_mask b (h b hb)).2
    rw [h1, List.map_id]
  have := varlen_build_parse l hne (fun b hb => by have := h b hb; omega)
    (fun b hb => h b (mem_of_getLast?_eq l b hb)) rest
  rw [hmask] at this
  exact this

/-- Building fails on any id 256 or larger (the `Byte` writer range check). -/
theorem varlen_build_overflow (l : List Nat) (b : Nat) (hb : b ∈ l) (h : 256 ≤ b) :
    varlen_build l = none := by
  match l, hb with
  | [c], hb =>
    have hcb : b = c := by simpa using hb
    subst hcb
    simp only [varlen_build, adapter_encode, repeatUntil_build]
    rw [if_pos (by omega)]
  | c :: d :: t, hb =>
    show repeatUntil_build (adapter_encode (c :: d :: t)) = none
    simp only [adapter_encode, repeatUntil_build]
    by_cases hc : 256 ≤ c ||| 128
    · rw [if_pos hc]
    · rw [if_neg hc, if_neg (by simp [lor128_flag c])]
      rcases List.mem_cons.mp hb with hcb | htb
      · have hcc : 256 ≤ c ||| 128 := le_trans (hcb ▸ h) (le_lor_self c 128)
        exact absurd hcc hc
      · have ih := varlen_build_overflow (d :: t) b htb h
        have ih2 : repeatUntil_build (adapter_encode (d :: t)) = none := ih
        rw [ih2]
        rfl

/-- Building fails when the final id already carries the nesting flag (the
`RepeatUntil` writer finds no element matching its predicate). -/
theorem varlen_build_highLast (l : List Nat) (b : Nat)
    (hlast : l.getLast? = some b) (h1 : 128 ≤ b) (h2 : b < 256) :
    varlen_build l = none := by
  match l with
  | [] => simp at hlast
  | [c] =>
    have hcb : c = b := by simpa using hlast
    subst hcb
    simp only [varlen_build, adapter_encode, repeatUntil_build]
    rw [if_neg (by omega), if_neg (by simp [highbit_flag c h1 h2])]
    rfl
  | c :: d :: t =>
    have ih := varlen_build_highLast (d :: t) b (by rw [← List.getLast?_cons_cons]; exact hlast) h1 h2
    show repeatUntil_build (adapter_encode (c :: d :: t)) = none
    simp only [adapter_encode, repeatUntil_build]
    by_cases hc : 256 ≤ c ||| 128
    · rw [if_pos hc]
    · rw [if_neg hc, if_neg (by simp [lor128_flag c])]
      have ih2 : repeatUntil_build (adapter_encode (d :: t)) = none := ih
      rw [ih2]
      rfl

/-- Claim C2: for any non-empty sequence of integers each in 0-127, decoding the
bytes produced by the VariableLengthID encoder yields the original sequence in
order: encode and decode are exact inverses. -/
theorem claim_c2 (l : List Nat) (hne : l ≠ []) (h : ∀ b ∈ l, b ≤ 127) :
    ∃ bs, varlen_build l = some bs ∧ varlen_parse bs = some (l, []) := by
  have := varlen_roundTrip l hne (fun b hb => by have := h b hb; omega) []
  exact ⟨adapter_encode l, this.1, by simpa using this.2⟩

/-- Witness for C2 at the sequence [3, 7]. -/
theorem claim_c2_witness :
    ∃ bs, varlen_build [3, 7] = some bs ∧ varlen_parse bs = some ([3, 7], []) :=
  claim_c2 [3, 7] (by decide) (by decide)

/-- Claim C6 counterexample: the sequence [128, 0] contains the value 128, which
is outside 0-127, yet encoding succeeds (no error) and the produced bytes decode
to [0, 0], a silently corrupted sequence. -/
theorem claim_c6_counterexample :
    varlen_build [128, 0] = some [128, 0] ∧ varlen_parse [128, 0] = some ([0, 0], []) := by
  decide

/-- Claim C6 amended: encoding a VariableLengthId fails fast on an empty
sequence, on a sequence containing a value 256 or larger, and on a sequence
whose final value is in 128-255; but a value in 128-255 at a non-final position
is silently accepted: the build succeeds and the resulting bytes decode to the
values with bit 7 cleared rather than the originals. -/
theorem claim_c6_amended :
    varlen_build [] = none
    ∧ (∀ (l : List Nat) (b : Nat), b ∈ l → 256 ≤ b → varlen_build l = none)
    ∧ (∀ (l : List Nat) (b : Nat), l.getLast? = some b → 128 ≤ b → b < 256 →
        varlen_build l = none)
    ∧ (∀ l : List Nat, l ≠ [] → (∀ b ∈ l, b < 256) → (∀ b, l.getLast? = some b → b < 128) →
        ∃ bs, varlen_build l = some bs ∧ varlen_parse bs = some (l.map (· &&& 127), [])) := by
  refine ⟨rfl, varlen_build_overflow, fun l b hl h1 h2 => varlen_build_highLast l b hl h1 h2, ?_⟩
  intro l hne hall hlast
  have := varlen_build_parse l hne hall hlast []
  exact ⟨adapter_encode l, this.1, by simpa using this.2⟩

/-- Witness for the amended C6 at the inputs [1, 300], [1, 200] and [200, 1]. -/
theorem claim_c6_amended_witness :
    varlen_build [1, 300] = none ∧ varlen_build [1, 200] = none ∧
      ∃ bs, varlen_build [200, 1] = some bs ∧ varlen_parse bs = some ([72, 1], []) := by
  refine ⟨claim_c6_amended.2.1 [1, 300] 300 (by decide) (by decide),
    claim_c6_amended.2.2.1 [1, 200] 200 (by decide) (by decide) (by decide), ?_⟩
  simpa using claim_c6_amended.2.2.2 [200, 1] (by decide) (by decide) (by decide)

/-! ### Round trips for good layouts -/

/-- Building ignores container entries whose name no field bears. -/
theorem buildLayout_shift (fs : Layout) (n : String) (v : Val) (m : List (String × Val))
    (h : n ∉ fieldNames fs) :
    buildLayout fs ((n, v) :: m) = buildLayout fs m := by
  match fs with
  | [] => rfl
  | (nameOpt, f) :: fs2 =>
    have htail : n ∉ fieldNames fs2 := by
      intro hx
      apply h
      cases nameOpt with
      | none => exact hx
      | some nm =>
        have hfn : fieldNames ((some nm, f) :: fs2) = nm :: fieldNames fs2 := rfl
        rw [hfn]
        exact List.mem_cons_of_mem nm hx
    have hhead : (nameOpt.bind fun nm => List.lookup nm ((n, v) :: m)) =
        nameOpt.bind fun nm => List.lookup nm m := by
      match nameOpt with
      | none => rfl
      | some nm =>
        have hne : nm ≠ n := by
          intro he
          apply h
          have hfn : fieldNames ((some nm, f) :: fs2) = nm :: fieldNames fs2 := rfl
          rw [hfn, he]
          exact List.mem_cons_self n _
        have hb : (nm == n) = false := beq_eq_false_iff_ne.mpr hne
        simp [List.lookup, hb]
    simp only [buildLayout, hhead]
    rw [buildLayout_shift fs2 n v m htail]

/-- A conforming value of a prefix-deterministic primitive builds successfully
and parses back exactly, whatever bytes follow. -/
theorem prt_prim_sound (p : Prim) (hp : prtPrim p = true) (v : Val)
    (hc : conformsPrim p v = true) (rest : List Nat) :
    ∃ bs, buildPrim p (some v) = some bs ∧ parsePrim p (bs ++ rest) = some (v, rest) := by
  cases p with
  | constByte n =>
    rcases v with i | l | l | fl | vl | o | mm <;> simp [conformsPrim] at hc
    subst hc
    exact ⟨[n], by simp [buildPrim], by simp [parsePrim]⟩
  | byte =>
    rcases v with i | l | l | fl | vl | o | mm <;> simp [conformsPrim] at hc
    obtain ⟨h0, h1⟩ := hc
    have he : ((i.toNat : Nat) : Int) = i := by omega
    exact ⟨[i.toNat], by simp [buildPrim, h0, h1], by simp [parsePrim, he]⟩
  | int8sb =>
    rcases v with i | l | l | fl | vl | o | mm <;> simp [conformsPrim] at hc
    obtain ⟨h0, h1⟩ := hc
    by_cases hpos : 0 ≤ i
    · have he : ((i.toNat : Nat) : Int) = i := by omega
      refine ⟨[i.toNat], by simp [buildPrim, h0, h1, hpos], ?_⟩
      have hlt : i.toNat < 128 := by omega
      simp [parsePrim, hlt, he]
    · refine ⟨[(i + 256).toNat], by simp [buildPrim, h0, h1, hpos], ?_⟩
      have hge : ¬ (i + 256).toNat < 128 := by omega
      simp only [List.cons_append, List.nil_append, parsePrim, hge, if_false]
      have he : (((i + 256).toNat : Nat) : Int) - 256 = i := by omega
      rw [he]
  | varlenId =>
    rcases v with i | l | l | fl | vl | o | mm <;> simp [conformsPrim] at hc
    obtain ⟨hne, hall⟩ := hc
    have rt := varlen_roundTrip l hne hall rest
    refine ⟨adapter_encode l, rt.1, ?_⟩
    show (varlen_parse (adapter_encode l ++ rest)).map _ = _
    rw [rt.2]
    rfl
  | greedyBytes => simp [prtPrim] at hp
  | flagsEnum names =>
    rcases v with i | l | l | fl | vl | o | mm
    case flags =>
      match fl, hc with
      | [], hc => exact absurd hc Bool.false_ne_true
      | [_], hc => exact absurd hc Bool.false_ne_true
      | [_, _], hc => exact absurd hc Bool.false_ne_true
      | _ :: _ :: _ :: _ :: _, hc => exact absurd hc Bool.false_ne_true
      | [(m1, b1), (m2, b2), (m3, b3)], hc =>
        have hc2 : ((decide (names = [(key_id_chain, 1), (key_system_container, 2), (key_default, 0)])
            || decide (names = [(key_erase_eeprom, 1), (key_hard_reset, 2), (key_default, 0)]))
            && decide (names.map Prod.fst = [m1, m2, m3]) && b3) = true := hc
        rw [Bool.and_eq_true, Bool.and_eq_true, Bool.or_eq_true] at hc2
        obtain ⟨⟨hn, hfst⟩, hb3⟩ := hc2
        have hb3e : b3 = true := hb3
        subst hb3e
        rcases hn with hn | hn
        all_goals
          first
          | (have hne : names = [(key_id_chain, 1), (key_system_container, 2), (key_default, 0)] :=
              of_decide_eq_true hn
             subst hne
             have hm : [key_id_chain, key_system_container, key_default] = [m1, m2, m3] :=
               of_decide_eq_true hfst
             obtain ⟨hm1, hm2, hm3⟩ : key_id_chain = m1 ∧ key_system_container = m2 ∧
                key_default = m3 := by
               simpa using hm)
          | (have hne : names = [(key_erase_eeprom, 1), (key_hard_reset, 2), (key_default, 0)] :=
              of_decide_eq_true hn
             subst hne
             have hm : [key_erase_eeprom, key_hard_reset, key_default] = [m1, m2, m3] :=
               of_decide_eq_true hfst
             obtain ⟨hm1, hm2, hm3⟩ : key_erase_eeprom = m1 ∧ key_hard_reset = m2 ∧
                key_default = m3 := by
               simpa using hm)
        all_goals subst hm1
        all_goals subst hm2
        all_goals subst hm3
        all_goals cases b1 <;> cases b2 <;> exact ⟨_, rfl, rfl⟩
    all_goals exact absurd hc Bool.false_ne_true
  | pad1 =>
    rcases v with i | l | l | fl | vl | o | mm <;> exact absurd hc Bool.false_ne_true
  | terminated => simp [prtPrim] at hp
  | seqByte1 =>
    cases v with
    | vlist vl =>
      cases vl with
      | nil => exact absurd hc Bool.false_ne_true
      | cons w vl2 =>
        cases w with
        | num i =>
          cases vl2 with
          | cons w2 vl3 => exact absurd hc Bool.false_ne_true
          | nil =>
            have hc2 : (decide (0 ≤ i) && decide (i < 256)) = true := hc
            simp only [Bool.and_eq_true, decide_eq_true_eq] at hc2
            obtain ⟨h0, h1⟩ := hc2
            have he : ((i.toNat : Nat) : Int) = i := by omega
            exact ⟨[i.toNat], by simp [buildPrim, h0, h1], by simp [parsePrim, he]⟩
        | ids l => exact absurd hc Bool.false_ne_true
        | bytes l => exact absurd hc Bool.false_ne_true
        | flags fl => exact absurd hc Bool.false_ne_true
        | vlist vl3 => exact absurd hc Bool.false_ne_true
        | opt o => exact absurd hc Bool.false_ne_true
        | map mm => exact absurd hc Bool.false_ne_true
    | num i => exact absurd hc Bool.false_ne_true
    | ids l => exact absurd hc Bool.false_ne_true
    | bytes l => exact absurd hc Bool.false_ne_true
    | flags fl => exact absurd hc Bool.false_ne_true
    | opt o => exact absurd hc Bool.false_ne_true
    | map mm => exact absurd hc Bool.false_ne_true

/-- Field-level version of `prt_prim_sound`. -/
theorem prt_field_sound (f : FieldCon) (hf : prtField f = true) (v : Val)
    (hc : conformsField f v = true) (rest : List Nat) :
    ∃ bs, buildField f (some v) = some bs ∧ parseField f (bs ++ rest) = some (v, rest) := by
  cases f with
  | prim p => exact prt_prim_sound p (by simpa [prtField] using hf) v hc rest
  | optSeqRec rec => simp [prtField] at hf
  | optIds => simp [prtField] at hf

/-- Unnamed prefix-deterministic fields build from `None` and parse to a
discarded value. -/
theorem prt_anon_sound (f : FieldCon) (hf : prtField f = true) (ha : anonFieldOK f = true)
    (rest : List Nat) :
    ∃ bs v, buildField f none = some bs ∧ parseField f (bs ++ rest) = some (v, rest) := by
  match f, hf, ha with
  | .prim (.pad1), _, _ => exact ⟨[0], .num 0, rfl, rfl⟩
  | .prim (.constByte c), _, ha => simp [anonFieldOK, anonPrimOK] at ha
  | .prim (.byte), _, ha => simp [anonFieldOK, anonPrimOK] at ha
  | .prim (.int8sb), _, ha => simp [anonFieldOK, anonPrimOK] at ha
  | .prim (.varlenId), _, ha => simp [anonFieldOK, anonPrimOK] at ha
  | .prim (.greedyBytes), hf, _ => simp [prtField, prtPrim] at hf
  | .prim (.flagsEnum names), _, ha => simp [anonFieldOK, anonPrimOK] at ha
  | .prim (.terminated), hf, _ => simp [prtField, prtPrim] at hf
  | .prim (.seqByte1), _, ha => simp [anonFieldOK, anonPrimOK] at ha
  | .optSeqRec rec, hf, _ => simp [prtField] at hf
  | .optIds, hf, _ => simp [prtField] at hf

/-- A conforming value of any primitive in final position builds and parses back
exactly, with nothing left over. -/
theorem last_prim_sound (p : Prim) (v : Val) (hc : conformsPrim p v = true) :
    ∃ bs, buildPrim p (some v) = some bs ∧ parsePrim p bs = some (v, []) := by
  by_cases hp : prtPrim p = true
  · obtain ⟨bs, h1, h2⟩ := prt_prim_sound p hp v hc []
    exact ⟨bs, h1, by simpa using h2⟩
  · match p, hp with
    | .greedyBytes, _ =>
      cases v with
      | bytes l =>
        refine ⟨l, ?_, rfl⟩
        have hc2 : (l.all fun x => decide (x < 256)) = true := hc
        show (if l.all (· < 256) then some l else none) = some l
        rw [if_pos hc2]
      | num i => exact absurd hc Bool.false_ne_true
      | ids l => exact absurd hc Bool.false_ne_true
      | flags fl => exact absurd hc Bool.false_ne_true
      | vlist vl => exact absurd hc Bool.false_ne_true
      | opt o => exact absurd hc Bool.false_ne_true
      | map mm => exact absurd hc Bool.false_ne_true
    | .terminated, _ =>
      rcases v with i | l | l | fl | vl | o | mm <;> exact absurd hc Bool.false_ne_true
    | .constByte n, hp => exact absurd rfl hp
    | .byte, hp => exact absurd rfl hp
    | .int8sb, hp => exact absurd rfl hp
    | .varlenId, hp => exact absurd rfl hp
    | .flagsEnum names, hp => exact absurd rfl hp
    | .pad1, hp => exact absurd rfl hp
    | .seqByte1, hp => exact absurd rfl hp

/-- Field-level version of `last_prim_sound`. -/
theorem last_field_sound (f : FieldCon) (hf : lastField f = true) (v : Val)
    (hc : conformsField f v = true) :
    ∃ bs, buildField f (some v) = some bs ∧ parseField f bs = some (v, []) := by
  cases f with
  | prim p => exact last_prim_sound p v hc
  | optSeqRec rec => simp [lastField] at hf
  | optIds => simp [conformsField] at hc

/-- Unnamed fields in final position. -/
theorem last_anon_sound (f : FieldCon) (ha : anonFieldOK f = true) :
    ∃ bs v, buildField f none = some bs ∧ parseField f bs = some (v, []) := by
  match f, ha with
  | .prim (.pad1), _ => exact ⟨[0], .num 0, rfl, rfl⟩
  | .prim (.terminated), _ => exact ⟨[], .num 0, rfl, rfl⟩
  | .optIds, _ => exact ⟨[], .opt none, rfl, rfl⟩
  | .prim (.constByte c), ha => simp [anonFieldOK, anonPrimOK] at ha
  | .prim (.byte), ha => simp [anonFieldOK, anonPrimOK] at ha
  | .prim (.int8sb), ha => simp [anonFieldOK, anonPrimOK] at ha
  | .prim (.varlenId), ha => simp [anonFieldOK, anonPrimOK] at ha
  | .prim (.greedyBytes), ha => simp [anonFieldOK, anonPrimOK] at ha
  | .prim (.flagsEnum names), ha => simp [anonFieldOK, anonPrimOK] at ha
  | .prim (.seqByte1), ha => simp [anonFieldOK, anonPrimOK] at ha
  | .optSeqRec rec, ha => simp [anonFieldOK] at ha

/-- One-step unfolding: building the empty layout. -/
theorem buildLayout_nil (m : List (String × Val)) : buildLayout [] m = some [] := rfl

/-- One-step unfolding: parsing the empty layout. -/
theorem parseLayout_nil (bs : List Nat) : parseLayout [] bs = some ([], bs) := rfl

/-- One-step unfolding: building a named head field. -/
theorem buildLayout_cons_some (n : String) (f : FieldCon) (fs : Layout)
    (m : List (String × Val)) :
    buildLayout ((some n, f) :: fs) m =
      (match buildField f (List.lookup n m) with
       | none => none
       | some bs =>
         match buildLayout fs m with
         | none => none
         | some bs2 => some (bs ++ bs2)) := rfl

/-- One-step unfolding: building an unnamed head field. -/
theorem buildLayout_cons_none (f : FieldCon) (fs : Layout) (m : List (String × Val)) :
    buildLayout ((none, f) :: fs) m =
      (match buildField f none with
       | none => none
       | some bs =>
         match buildLayout fs m with
         | none => none
         | some bs2 => some (bs ++ bs2)) := rfl

/-- One-step unfolding: parsing a named head field. -/
theorem parseLayout_cons_some (n : String) (f : FieldCon) (fs : Layout) (bs : List Nat) :
    parseLayout ((some n, f) :: fs) bs =
      (match parseField f bs with
       | none => none
       | some (v, rest) =>
         match parseLayout fs rest with
         | none => none
         | some (mm, r) => some ((n, v) :: mm, r)) := rfl

/-- One-step unfolding: parsing an unnamed head field. -/
theorem parseLayout_cons_none (f : FieldCon) (fs : Layout) (bs : List Nat) :
    parseLayout ((none, f) :: fs) bs =
      (match parseField f bs with
       | none => none
       | some (v, rest) =>
         match parseLayout fs rest with
         | none => none
         | some (mm, r) => some (mm, r)) := rfl

/-- The central round-trip theorem: on a good layout, every conforming container
builds to bytes that parse back to exactly that container with no bytes left. -/
theorem buildparse_good (fs : Layout) (m : List (String × Val))
    (hg : goodLayout fs = true) (hc : conformsLayout fs m = true) :
    ∃ bs, buildLayout fs m = some bs ∧ parseLayout fs bs = some (m, []) := by
  induction fs generalizing m with
  | nil =>
    have hm : m = [] := by
      cases m with
      | nil => rfl
      | cons a m2 => simp [conformsLayout] at hc
    subst hm
    exact ⟨[], rfl, rfl⟩
  | cons hd tl ih =>
    obtain ⟨nameOpt, f⟩ := hd
    rw [goodLayout, Bool.and_eq_true] at hg
    obtain ⟨hdist, htail⟩ := hg
    cases tl with
    | nil =>
      cases nameOpt with
      | some n =>
        match m, hc with
        | [], hc => exact absurd hc Bool.false_ne_true
        | (n2, v) :: m2, hc =>
          rw [conformsLayout, Bool.and_eq_true, Bool.and_eq_true] at hc
          obtain ⟨⟨hn2, hcv⟩, hm2⟩ := hc
          have hn2e : n2 = n := by simpa using hn2
          subst hn2e
          have hm2e : m2 = [] := by
            cases m2 with
            | nil => rfl
            | cons a m3 => simp [conformsLayout] at hm2
          subst hm2e
          have hlf : lastField f = true := by
            have e : goodTail [(some n2, f)] = lastField f := rfl
            rw [e] at htail
            exact htail
          obtain ⟨bs, hb, hp⟩ := last_field_sound f hlf v hcv
          have hlook : List.lookup n2 ((n2, v) :: ([] : List (String × Val))) = some v := by
            simp [List.lookup]
          refine ⟨bs, ?_, ?_⟩
          · simp [buildLayout_cons_some, buildLayout_nil, hlook, hb]
          · simp [parseLayout_cons_some, parseLayout_nil, hp]
      | none =>
        rw [conformsLayout, Bool.and_eq_true] at hc
        obtain ⟨hanon, hm2⟩ := hc
        have hme : m = [] := by
          cases m with
          | nil => rfl
          | cons a m2 => simp [conformsLayout] at hm2
        subst hme
        obtain ⟨bs, v, hb, hp⟩ := last_anon_sound f hanon
        refine ⟨bs, ?_, ?_⟩
        · simp [buildLayout_cons_none, buildLayout_nil, hb]
        · simp [parseLayout_cons_none, parseLayout_nil, hp]
    | cons g tl2 =>
      have hsplit : (prtField f && goodTail (g :: tl2)) = true := by
        have e : goodTail ((nameOpt, f) :: g :: tl2) = (prtField f && goodTail (g :: tl2)) := rfl
        rw [e] at htail
        exact htail
      rw [Bool.and_eq_true] at hsplit
      obtain ⟨hprt, htail2⟩ := hsplit
      cases nameOpt with
      | some n =>
        match m, hc with
        | [], hc => exact absurd hc Bool.false_ne_true
        | (n2, v) :: m2, hc =>
          rw [conformsLayout, Bool.and_eq_true, Bool.and_eq_true] at hc
          obtain ⟨⟨hn2, hcv⟩, hm2⟩ := hc
          have hn2e : n2 = n := by simpa using hn2
          subst hn2e
          have hnames : fieldNames ((some n2, f) :: g :: tl2) = n2 :: fieldNames (g :: tl2) := rfl
          rw [hnames, distinctNames, Bool.and_eq_true] at hdist
          obtain ⟨hnin, hdist2⟩ := hdist
          have hnin2 : n2 ∉ fieldNames (g :: tl2) := of_decide_eq_true hnin
          have hgood2 : goodLayout (g :: tl2) = true := by
            rw [goodLayout, Bool.and_eq_true]
            exact ⟨hdist2, htail2⟩
          obtain ⟨bs2, hb2, hp2⟩ := ih m2 hgood2 hm2
          obtain ⟨bs1, hb1, hp1⟩ := prt_field_sound f hprt v hcv bs2
          have hlook : List.lookup n2 ((n2, v) :: m2) = some v := by simp [List.lookup]
          have hshift : buildLayout (g :: tl2) ((n2, v) :: m2) =
              buildLayout (g :: tl2) m2 := buildLayout_shift (g :: tl2) n2 v m2 hnin2
          refine ⟨bs1 ++ bs2, ?_, ?_⟩
          · simp [buildLayout_cons_some, hlook, hb1, hshift, hb2]
          · simp [parseLayout_cons_some, hp1, hp2]
      | none =>
        rw [conformsLayout, Bool.and_eq_true] at hc
        obtain ⟨hanon, hm2⟩ := hc
        have hnames : fieldNames ((none, f) :: g :: tl2) = fieldNames (g :: tl2) := rfl
        rw [hnames] at hdist
        have hgood2 : goodLayout (g :: tl2) = true := by
          rw [goodLayout, Bool.and_eq_true]
          exact ⟨hdist, htail2⟩
        obtain ⟨bs2, hb2, hp2⟩ := ih m hgood2 hm2
        obtain ⟨bs1, v, hb1, hp1⟩ := prt_anon_sound f hprt hanon bs2
        refine ⟨bs1 ++ bs2, ?_, ?_⟩
        · simp [buildLayout_cons_none, hb1, hb2]
        · simp [parseLayout_cons_none, hp1, hp2]

/-! ### Assembling the Command round trip -/

/-- `parseField` on a primitive is `parsePrim`. -/
theorem parseField_prim (p : Prim) (bs : List Nat) :
    parseField (.prim p) bs = parsePrim p bs := rfl

/-- `buildField` on a primitive is `buildPrim`. -/
theorem buildField_prim (p : Prim) (v : Option Val) :
    buildField (.prim p) v = buildPrim p v := rfl

/-- The request bytes of a conforming container start with the opcode constant. -/
theorem build_head_const (c : Nat) (fs : Layout) (m : List (String × Val)) (bs : List Nat)
    (hc : conformsLayout ((some key_opcode, .prim (.constByte c)) :: fs) m = true)
    (hb : buildLayout ((some key_opcode, .prim (.constByte c)) :: fs) m = some bs) :
    ∃ t, bs = c :: t := by
  match m, hc, hb with
  | [], hc, hb => exact absurd hc Bool.false_ne_true
  | (n2, v) :: m2, hc, hb =>
    rw [conformsLayout, Bool.and_eq_true, Bool.and_eq_true] at hc
    obtain ⟨⟨hn2, hcv⟩, hm2⟩ := hc
    have hn2e : n2 = key_opcode := by simpa using hn2
    subst hn2e
    cases v with
    | num i =>
      have hie : i = (c : Int) := by
        have hcv2 : (i == (c : Int)) = true := hcv
        simpa using hcv2
      subst hie
      rw [buildLayout_cons_some] at hb
      rw [show List.lookup key_opcode ((key_opcode, Val.num (c : Int)) :: m2) =
        some (Val.num (c : Int)) by simp [List.lookup]] at hb
      rw [show buildField (.prim (.constByte c)) (some (Val.num (c : Int))) = some [c] by
        simp [buildField, buildPrim]] at hb
      cases h2 : buildLayout fs ((key_opcode, Val.num (c : Int)) :: m2) with
      | none => rw [h2] at hb; exact absurd hb (by simp)
      | some bs2 =>
        rw [h2] at hb
        exact ⟨bs2, (Option.some.inj hb).symm⟩
    | ids l => exact absurd hcv Bool.false_ne_true
    | bytes l => exact absurd hcv Bool.false_ne_true
    | flags fl => exact absurd hcv Bool.false_ne_true
    | vlist vl => exact absurd hcv Bool.false_ne_true
    | opt o => exact absurd hcv Bool.false_ne_true
    | map mm => exact absurd hcv Bool.false_ne_true

/-- The response bytes of a conforming container start with the encoded status
byte, and the container starts with the status entry. -/
theorem build_head_int8sb (fs : Layout) (m : List (String × Val)) (bs : List Nat)
    (hc : conformsLayout ((some key_errcode, .prim .int8sb) :: fs) m = true)
    (hb : buildLayout ((some key_errcode, .prim .int8sb) :: fs) m = some bs) :
    ∃ i m2 t, m = (key_errcode, Val.num i) :: m2 ∧ -128 ≤ i ∧ i < 128 ∧
      bs = (if 0 ≤ i then i else i + 256).toNat :: t := by
  match m, hc, hb with
  | [], hc, hb => exact absurd hc Bool.false_ne_true
  | (n2, v) :: m2, hc, hb =>
    rw [conformsLayout, Bool.and_eq_true, Bool.and_eq_true] at hc
    obtain ⟨⟨hn2, hcv⟩, hm2⟩ := hc
    have hn2e : n2 = key_errcode := by simpa using hn2
    subst hn2e
    cases v with
    | num i =>
      have hcv2 : (decide (-128 ≤ i) && decide (i < 128)) = true := hcv
      simp only [Bool.and_eq_true, decide_eq_true_eq] at hcv2
      obtain ⟨hlo, hhi⟩ := hcv2
      rw [buildLayout_cons_some] at hb
      rw [show List.lookup key_errcode ((key_errcode, Val.num i) :: m2) =
        some (Val.num i) by simp [List.lookup]] at hb
      rw [show buildField (.prim .int8sb) (some (Val.num i)) =
        some [(if 0 ≤ i then i else i + 256).toNat] by
          simp [buildField, buildPrim, hlo, hhi]] at hb
      cases h2 : buildLayout fs ((key_errcode, Val.num i) :: m2) with
      | none => rw [h2] at hb; exact absurd hb (by simp)
      | some bs2 =>
        rw [h2] at hb
        exact ⟨i, m2, bs2, rfl, hlo, hhi, (Option.some.inj hb).symm⟩
    | ids l => exact absurd hcv Bool.false_ne_true
    | bytes l => exact absurd hcv Bool.false_ne_true
    | flags fl => exact absurd hcv Bool.false_ne_true
    | vlist vl => exact absurd hcv Bool.false_ne_true
    | opt o => exact absurd hcv Bool.false_ne_true
    | map mm => exact absurd hcv Bool.false_ne_true

/-- Identifying a definition from the encoded request's opcode byte. -/
theorem from_encoded_of_head (name : String) (d : CommandDefinition) (c : Nat) (t : List Nat)
    (hdec : opcode_decmapping c = some name)
    (hlook : List.lookup name COMMAND_DEFS = some d) :
    from_encoded (c :: t) = some d := by
  have he : from_encoded (c :: t) = (opcode_decmapping c).bind
      fun n => List.lookup n COMMAND_DEFS := rfl
  rw [he, hdec]
  simpa using hlook

/-- A response that builds and re-parses exactly decodes to its container when
the status is non-negative. -/
theorem decoded_response_of_parse (d : CommandDefinition) {fs : Layout}
    (hresp : d.response = (some key_errcode, .prim .int8sb) :: fs)
    (m : List (String × Val)) (bs : List Nat)
    (hc : conformsLayout d.response m = true)
    (hs : statusNonNeg m = true)
    (hb : buildLayout d.response m = some bs)
    (hp : parseLayout d.response bs = some (m, [])) :
    decoded_response d bs = .ok m := by
  rw [hresp] at hc hb
  obtain ⟨i, m2, t, hm, hlo, hhi, hbs⟩ := build_head_int8sb fs m bs hc hb
  have h0 : 0 ≤ i := by
    rw [hm] at hs
    unfold statusNonNeg at hs
    rw [show List.lookup key_errcode ((key_errcode, Val.num i) :: m2) =
      some (Val.num i) by simp [List.lookup]] at hs
    simpa using hs
  rw [if_pos h0] at hbs
  subst hbs
  simp only [decoded_response]
  rw [if_pos (show i.toNat < 128 by omega)]
  rw [if_neg (show ¬ ((i.toNat : Nat) : Int) < 0 by omega)]
  rw [hp]

/-- The request side of the round trip, for any registered kind. -/
theorem request_roundTrip (d : CommandDefinition) (name : String) {c : Nat} {fs : Layout}
    (hlook : List.lookup name COMMAND_DEFS = some d)
    (hreq : d.request = (some key_opcode, .prim (.constByte c)) :: fs)
    (hdec : opcode_decmapping c = some name)
    (hg : goodLayout d.request = true)
    (mreq : List (String × Val)) (hc : conformsLayout d.request mreq = true) :
    ∃ breq, encoded_request d mreq = some breq ∧ from_encoded breq = some d ∧
      decoded_request d breq = some (mreq, []) := by
  obtain ⟨bs, hb, hp⟩ := buildparse_good d.request mreq hg hc
  refine ⟨bs, hb, ?_, hp⟩
  rw [hreq] at hc hb
  obtain ⟨t, hbs⟩ := build_head_const c fs mreq bs hc hb
  subst hbs
  exact from_encoded_of_head name d c t hdec hlook

/-- The response side of the round trip, for kinds with a good response layout. -/
theorem response_roundTrip (d : CommandDefinition) {fs : Layout}
    (hresp : d.response = (some key_errcode, .prim .int8sb) :: fs)
    (hg : goodLayout d.response = true)
    (m : List (String × Val)) (hc : conformsLayout d.response m = true)
    (hs : statusNonNeg m = true) :
    ∃ bresp, encoded_response d m = some bresp ∧ decoded_response d bresp = .ok m := by
  obtain ⟨bs, hb, hp⟩ := buildparse_good d.response m hg hc
  exact ⟨bs, hb, decoded_response_of_parse d hresp m bs hc hs hb hp⟩

/-! ### The two list-valued responses -/

/-- Round trip of the LIST_OBJECTS response with no objects: status byte, one
zero padding byte, terminator. -/
theorem listObjects_empty_response (i : Int) (h0 : 0 ≤ i) (h1 : i < 128) :
    encoded_response def_LIST_OBJECTS
        [(key_errcode, .num i), (key_objects, .opt none), (key_terminator, .num 0)] =
      some [i.toNat, 0, 0]
    ∧ decoded_response def_LIST_OBJECTS [i.toNat, 0, 0] =
        .ok [(key_errcode, .num i), (key_objects, .opt none), (key_terminator, .num 0)] := by
  have hlo : (-128 : Int) ≤ i := by omega
  have hlayout : def_LIST_OBJECTS.response =
      (some key_errcode, FieldCon.prim .int8sb) :: (none, .prim .pad1) ::
        (some key_objects, .optSeqRec listObjectsRecord) ::
        (some key_terminator, .prim (.constByte 0)) :: [(none, .prim .terminated)] := rfl
  have ne1 : (key_objects == key_errcode) = false := by decide
  have ne2 : (key_terminator == key_errcode) = false := by decide
  have ne3 : (key_terminator == key_objects) = false := by decide
  have hparse : parseLayout def_LIST_OBJECTS.response [i.toNat, 0, 0] =
      some ([(key_errcode, .num i), (key_objects, .opt none), (key_terminator, .num 0)], []) := by
    rw [hlayout]
    have p1 : parsePrim .int8sb (i.toNat :: [0, 0]) = some (.num i, [0, 0]) := by
      simp only [parsePrim]
      rw [if_pos (show i.toNat < 128 by omega)]
      rw [show ((i.toNat : Nat) : Int) = i by omega]
    have p2 : parsePrim .pad1 ([0, 0] : List Nat) = some (.num 0, [0]) := rfl
    have p3 : parseField (.optSeqRec listObjectsRecord) [0] = some (.opt none, [0]) := rfl
    have p4 : parsePrim (.constByte 0) [0] = some (.num 0, []) := rfl
    have p5 : parsePrim .terminated ([] : List Nat) = some (.num 0, []) := rfl
    simp [parseLayout_cons_some, parseLayout_cons_none, parseLayout_nil, parseField_prim,
      p1, p2, p3, p4, p5]
  constructor
  · show buildLayout def_LIST_OBJECTS.response _ = _
    rw [hlayout]
    have l1 : List.lookup key_errcode
        [(key_errcode, Val.num i), (key_objects, Val.opt none), (key_terminator, Val.num 0)] =
        some (Val.num i) := by simp [List.lookup]
    have l2 : List.lookup key_objects
        [(key_errcode, Val.num i), (key_objects, Val.opt none), (key_terminator, Val.num 0)] =
        some (Val.opt none) := by simp [List.lookup, ne1]
    have l3 : List.lookup key_terminator
        [(key_errcode, Val.num i), (key_objects, Val.opt none), (key_terminator, Val.num 0)] =
        some (Val.num 0) := by simp [List.lookup, ne2, ne3]
    have b1 : buildPrim .int8sb (some (Val.num i)) = some [i.toNat] := by
      simp [buildPrim, hlo, h1, h0]
    have b2 : buildField (.optSeqRec listObjectsRecord) (some (Val.opt none)) = some [] := rfl
    have b3 : buildPrim (.constByte 0) (some (Val.num 0)) = some [0] := rfl
    have b4 : buildPrim .pad1 (none : Option Val) = some [0] := rfl
    have b5 : buildPrim .terminated (none : Option Val) = some [] := rfl
    simp [buildLayout_cons_some, buildLayout_cons_none, buildLayout_nil, buildField_prim,
      l1, l2, l3, b1, b2, b3, b4, b5]
  · simp only [decoded_response]
    rw [if_pos (show i.toNat < 128 by omega)]
    rw [if_neg (show ¬ ((i.toNat : Nat) : Int) < 0 by omega)]
    rw [hparse]

/-- Round trip of the LOG_VALUES response with no objects: status byte then
terminator. -/
theorem logValues_empty_response (i : Int) (h0 : 0 ≤ i) (h1 : i < 128) :
    encoded_response def_LOG_VALUES
        [(key_errcode, .num i), (key_objects, .opt none), (key_terminator, .num 0)] =
      some [i.toNat, 0]
    ∧ decoded_response def_LOG_VALUES [i.toNat, 0] =
        .ok [(key_errcode, .num i), (key_objects, .opt none), (key_terminator, .num 0)] := by
  have hlo : (-128 : Int) ≤ i := by omega
  have hlayout : def_LOG_VALUES.response =
      (some key_errcode, FieldCon.prim .int8sb) ::
        (some key_objects, .optSeqRec logValuesRecord) ::
        (some key_terminator, .prim (.constByte 0)) :: [(none, .prim .terminated)] := rfl
  have ne1 : (key_objects == key_errcode) = false := by decide
  have ne2 : (key_terminator == key_errcode) = false := by decide
  have ne3 : (key_terminator == key_objects) = false := by decide
  have hparse : parseLayout def_LOG_VALUES.response [i.toNat, 0] =
      some ([(key_errcode, .num i), (key_objects, .opt none), (key_terminator, .num 0)], []) := by
    rw [hlayout]
    have p1 : parsePrim .int8sb (i.toNat :: [0]) = some (.num i, [0]) := by
      simp only [parsePrim]
      rw [if_pos (show i.toNat < 128 by omega)]
      rw [show ((i.toNat : Nat) : Int) = i by omega]
    have p3 : parseField (.optSeqRec logValuesRecord) [0] = some (.opt none, [0]) := rfl
    have p4 : parsePrim (.constByte 0) [0] = some (.num 0, []) := rfl
    have p5 : parsePrim .terminated ([] : List Nat) = some (.num 0, []) := rfl
    simp [parseLayout_cons_some, parseLayout_cons_none, parseLayout_nil, parseField_prim,
      p1, p3, p4, p5]
  constructor
  · show buildLayout def_LOG_VALUES.response _ = _
    rw [hlayout]
    have l1 : List.lookup key_errcode
        [(key_errcode, Val.num i), (key_objects, Val.opt none), (key_terminator, Val.num 0)] =
        some (Val.num i) := by simp [List.lookup]
    have l2 : List.lookup key_objects
        [(key_errcode, Val.num i), (key_objects, Val.opt none), (key_terminator, Val.num 0)] =
        some (Val.opt none) := by simp [List.lookup, ne1]
    have l3 : List.lookup key_terminator
        [(key_errcode, Val.num i), (key_objects, Val.opt none), (key_terminator, Val.num 0)] =
        some (Val.num 0) := by simp [List.lookup, ne2, ne3]
    have b1 : buildPrim .int8sb (some (Val.num i)) = some [i.toNat] := by
      simp [buildPrim, hlo, h1, h0]
    have b2 : buildField (.optSeqRec logValuesRecord) (some (Val.opt none)) = some [] := rfl
    have b3 : buildPrim (.constByte 0) (some (Val.num 0)) = some [0] := rfl
    have b5 : buildPrim .terminated (none : Option Val) = some [] := rfl
    simp [buildLayout_cons_some, buildLayout_cons_none, buildLayout_nil, buildField_prim,
      l1, l2, l3, b1, b2, b3, b5]
  · simp only [decoded_response]
    rw [if_pos (show i.toNat < 128 by omega)]
    rw [if_neg (show ¬ ((i.toNat : Nat) : Int) < 0 by omega)]
    rw [hparse]

/-- A conforming LIST_OBJECTS response container with an absent object list has
exactly the three entries status / objects / terminator. -/
theorem listObjects_conform_shape (m : List (String × Val))
    (hc : conformsLayout def_LIST_OBJECTS.response m = true)
    (he : emptyListObjects .LIST_OBJECTS m = true) :
    ∃ i, -128 ≤ i ∧ i < 128 ∧
      m = [(key_errcode, .num i), (key_objects, .opt none), (key_terminator, .num 0)] := by
  have hlayout : def_LIST_OBJECTS.response =
      (some key_errcode, FieldCon.prim .int8sb) :: (none, .prim .pad1) ::
        (some key_objects, .optSeqRec listObjectsRecord) ::
        (some key_terminator, .prim (.constByte 0)) :: [(none, .prim .terminated)] := rfl
  rw [hlayout] at hc
  have ne1 : (key_objects == key_errcode) = false := by decide
  match m, hc, he with
  | [], hc, he => exact absurd hc Bool.false_ne_true
  | [(n1, v1)], hc, he =>
    simp [conformsLayout, anonFieldOK, anonPrimOK] at hc
  | [(n1, v1), (n2, v2)], hc, he =>
    simp [conformsLayout, anonFieldOK, anonPrimOK] at hc
  | (n1, v1) :: (n2, v2) :: (n3, v3) :: (n4, v4) :: m5, hc, he =>
    simp [conformsLayout, anonFieldOK, anonPrimOK] at hc
  | [(n1, v1), (n2, v2), (n3, v3)], hc, he =>
    simp only [conformsLayout, anonFieldOK, anonPrimOK, Bool.and_eq_true, beq_iff_eq] at hc
    obtain ⟨⟨hn1, hcv1⟩, -, ⟨hn2, hcv2⟩, ⟨hn3, hcv3⟩, -⟩ := hc
    subst hn1
    subst hn2
    subst hn3
    cases v1 with
    | num i =>
      have hcv1b : (decide (-128 ≤ i) && decide (i < 128)) = true := hcv1
      simp only [Bool.and_eq_true, decide_eq_true_eq] at hcv1b
      cases v3 with
      | num j =>
        have hcv3b : (j == (0 : Int)) = true := hcv3
        have hj : j = 0 := by simpa using hcv3b
        subst hj
        have he2 : (match some v2 with
            | some (Val.opt none) => true
            | _ => false) = true := by
          have heq : emptyListObjects .LIST_OBJECTS
              [(key_errcode, Val.num i), (key_objects, v2), (key_terminator, Val.num 0)] =
              (match List.lookup key_objects [(key_errcode, Val.num i), (key_objects, v2),
                (key_terminator, Val.num 0)] with
               | some (Val.opt none) => true
               | _ => false) := rfl
          rw [heq] at he
          rw [show List.lookup key_objects [(key_errcode, Val.num i), (key_objects, v2),
            (key_terminator, Val.num 0)] = some v2 by simp [List.lookup, ne1]] at he
          exact he
        cases v2 with
        | opt o =>
          cases o with
          | none => exact ⟨i, hcv1b.1, hcv1b.2, rfl⟩
          | some w => exact absurd he2 Bool.false_ne_true
        | num k => exact absurd he2 Bool.false_ne_true
        | ids l => exact absurd he2 Bool.false_ne_true
        | bytes l => exact absurd he2 Bool.false_ne_true
        | flags fl => exact absurd he2 Bool.false_ne_true
        | vlist vl => exact absurd he2 Bool.false_ne_true
        | map mm => exact absurd he2 Bool.false_ne_true
      | ids l => exact absurd hcv3 Bool.false_ne_true
      | bytes l => exact absurd hcv3 Bool.false_ne_true
      | flags fl => exact absurd hcv3 Bool.false_ne_true
      | vlist vl => exact absurd hcv3 Bool.false_ne_true
      | opt o => exact absurd hcv3 Bool.false_ne_true
      | map mm => exact absurd hcv3 Bool.false_ne_true
    | ids l => exact absurd hcv1 Bool.false_ne_true
    | bytes l => exact absurd hcv1 Bool.false_ne_true
    | flags fl => exact absurd hcv1 Bool.false_ne_true
    | vlist vl => exact absurd hcv1 Bool.false_ne_true
    | opt o => exact absurd hcv1 Bool.false_ne_true
    | map mm => exact absurd hcv1 Bool.false_ne_true

/-- A conforming LOG_VALUES response container with an absent object list has
exactly the three entries status / objects / terminator. -/
theorem logValues_conform_shape (m : List (String × Val))
    (hc : conformsLayout def_LOG_VALUES.response m = true)
    (he : emptyListObjects .LOG_VALUES m = true) :
    ∃ i, -128 ≤ i ∧ i < 128 ∧
      m = [(key_errcode, .num i), (key_objects, .opt none), (key_terminator, .num 0)] := by
  have hlayout : def_LOG_VALUES.response =
      (some key_errcode, FieldCon.prim .int8sb) ::
        (some key_objects, .optSeqRec logValuesRecord) ::
        (some key_terminator, .prim (.constByte 0)) :: [(none, .prim .terminated)] := rfl
  rw [hlayout] at hc
  have ne1 : (key_objects == key_errcode) = false := by decide
  match m, hc, he with
  | [], hc, he => exact absurd hc Bool.false_ne_true
  | [(n1, v1)], hc, he =>
    simp [conformsLayout, anonFieldOK, anonPrimOK] at hc
  | [(n1, v1), (n2, v2)], hc, he =>
    simp [conformsLayout, anonFieldOK, anonPrimOK] at hc
  | (n1, v1) :: (n2, v2) :: (n3, v3) :: (n4, v4) :: m5, hc, he =>
    simp [conformsLayout, anonFieldOK, anonPrimOK] at hc
  | [(n1, v1), (n2, v2), (n3, v3)], hc, he =>
    simp only [conformsLayout, anonFieldOK, anonPrimOK, Bool.and_eq_true, beq_iff_eq] at hc
    obtain ⟨⟨hn1, hcv1⟩, ⟨hn2, hcv2⟩, ⟨hn3, hcv3⟩, -⟩ := hc
    subst hn1
    subst hn2
    subst hn3
    cases v1 with
    | num i =>
      have hcv1b : (decide (-128 ≤ i) && decide (i < 128)) = true := hcv1
      simp only [Bool.and_eq_true, decide_eq_true_eq] at hcv1b
      cases v3 with
      | num j =>
        have hcv3b : (j == (0 : Int)) = true := hcv3
        have hj : j = 0 := by simpa using hcv3b
        subst hj
        have he2 : (match some v2 with
            | some (Val.opt none) => true
            | _ => false) = true := by
          have heq : emptyListObjects .LOG_VALUES
              [(key_errcode, Val.num i), (key_objects, v2), (key_terminator, Val.num 0)] =
              (match List.lookup key_objects [(key_errcode, Val.num i), (key_objects, v2),
                (key_terminator, Val.num 0)] with
               | some (Val.opt none) => true
               | _ => false) := rfl
          rw [heq] at he
          rw [show List.lookup key_objects [(key_errcode, Val.num i), (key_objects, v2),
            (key_terminator, Val.num 0)] = some v2 by simp [List.lookup, ne1]] at he
          exact he
        cases v2 with
        | opt o =>
          cases o with
          | none => exact ⟨i, hcv1b.1, hcv1b.2, rfl⟩
          | some w => exact absurd he2 Bool.false_ne_true
        | num k => exact absurd he2 Bool.false_ne_true
        | ids l => exact absurd he2 Bool.false_ne_true
        | bytes l => exact absurd he2 Bool.false_ne_true
        | flags fl => exact absurd he2 Bool.false_ne_true
        | vlist vl => exact absurd he2 Bool.false_ne_true
        | map mm => exact absurd he2 Bool.false_ne_true
      | ids l => exact absurd hcv3 Bool.false_ne_true
      | bytes l => exact absurd hcv3 Bool.false_ne_true
      | flags fl => exact absurd hcv3 Bool.false_ne_true
      | vlist vl => exact absurd hcv3 Bool.false_ne_true
      | opt o => exact absurd hcv3 Bool.false_ne_true
      | map mm => exact absurd hcv3 Bool.false_ne_true
    | ids l => exact absurd hcv1 Bool.false_ne_true
    | bytes l => exact absurd hcv1 Bool.false_ne_true
    | flags fl => exact absurd hcv1 Bool.false_ne_true
    | vlist vl => exact absurd hcv1 Bool.false_ne_true
    | opt o => exact absurd hcv1 Bool.false_ne_true
    | map mm => exact absurd hcv1 Bool.false_ne_true

/-- Claim C1 amended: for every CommandKind with a registered definition, a
conforming request container builds to bytes from which the encoded path
re-identifies the same definition and re-parses the identical container; a
conforming response container with non-negative status does the same through
decoded_response, except that for the two list-valued responses (LIST_OBJECTS,
LOG_VALUES) the object list must be absent - a built non-empty record group
fails to re-parse because the record's greedy data field consumes the
terminator. -/
theorem claim_c1_amended :
    ∀ (k : CommandKind) (d : CommandDefinition),
      List.lookup (kindName k) COMMAND_DEFS = some d →
      (∀ mreq, conformsLayout d.request mreq = true →
        ∃ breq, encoded_request d mreq = some breq ∧
          from_encoded breq = some d ∧
          decoded_request d breq = some (mreq, []))
      ∧ (∀ mresp, conformsLayout d.response mresp = true →
          statusNonNeg mresp = true → emptyListObjects k mresp = true →
          ∃ bresp, encoded_response d mresp = some bresp ∧
            decoded_response d bresp = .ok mresp) := by
  intro k d hd
  cases k with
  | READ_VALUE =>
    obtain rfl : def_READ_VALUE = d := Option.some.inj hd
    exact ⟨fun mreq hc => request_roundTrip def_READ_VALUE (kindName .READ_VALUE)
        rfl rfl rfl (by decide) mreq hc,
      fun mresp hc hs _ => response_roundTrip def_READ_VALUE rfl (by decide) mresp hc hs⟩
  | WRITE_VALUE =>
    obtain rfl : def_WRITE_VALUE = d := Option.some.inj hd
    exact ⟨fun mreq hc => request_roundTrip def_WRITE_VALUE (kindName .WRITE_VALUE)
        rfl rfl rfl (by decide) mreq hc,
      fun mresp hc hs _ => response_roundTrip def_WRITE_VALUE rfl (by decide) mresp hc hs⟩
  | CREATE_OBJECT =>
    obtain rfl : def_CREATE_OBJECT = d := Option.some.inj hd
    exact ⟨fun mreq hc => request_roundTrip def_CREATE_OBJECT (kindName .CREATE_OBJECT)
        rfl rfl rfl (by decide) mreq hc,
      fun mresp hc hs _ => response_roundTrip def_CREATE_OBJECT rfl (by decide) mresp hc hs⟩
  | DELETE_OBJECT =>
    obtain rfl : def_DELETE_OBJECT = d := Option.some.inj hd
    exact ⟨fun mreq hc => request_roundTrip def_DELETE_OBJECT (kindName .DELETE_OBJECT)
        rfl rfl rfl (by decide) mreq hc,
      fun mresp hc hs _ => response_roundTrip def_DELETE_OBJECT rfl (by decide) mresp hc hs⟩
  | LIST_OBJECTS =>
    obtain rfl : def_LIST_OBJECTS = d := Option.some.inj hd
    refine ⟨fun mreq hc => request_roundTrip def_LIST_OBJECTS (kindName .LIST_OBJECTS)
        rfl rfl rfl (by decide) mreq hc, ?_⟩
    intro mresp hc hs he
    obtain ⟨i, hlo, hhi, hm⟩ := listObjects_conform_shape mresp hc he
    subst hm
    have h0 : 0 ≤ i := by
      unfold statusNonNeg at hs
      rw [show List.lookup key_errcode [(key_errcode, Val.num i), (key_objects, Val.opt none),
        (key_terminator, Val.num 0)] = some (Val.num i) by simp [List.lookup]] at hs
      simpa using hs
    have hr := listObjects_empty_response i h0 hhi
    exact ⟨[i.toNat, 0, 0], hr.1, hr.2⟩
  | FREE_SLOT =>
    obtain rfl : def_FREE_SLOT = d := Option.some.inj hd
    exact ⟨fun mreq hc => request_roundTrip def_FREE_SLOT (kindName .FREE_SLOT)
        rfl rfl rfl (by decide) mreq hc,
      fun mresp hc hs _ => response_roundTrip def_FREE_SLOT rfl (by decide) mresp hc hs⟩
  | CREATE_PROFILE =>
    obtain rfl : def_CREATE_PROFILE = d := Option.some.inj hd
    exact ⟨fun mreq hc => request_roundTrip def_CREATE_PROFILE (kindName .CREATE_PROFILE)
        rfl rfl rfl (by decide) mreq hc,
      fun mresp hc hs _ => response_roundTrip def_CREATE_PROFILE rfl (by decide) mresp hc hs⟩
  | DELETE_PROFILE =>
    obtain rfl : def_DELETE_PROFILE = d := Option.some.inj hd
    exact ⟨fun mreq hc => request_roundTrip def_DELETE_PROFILE (kindName .DELETE_PROFILE)
        rfl rfl rfl (by decide) mreq hc,
      fun mresp hc hs _ => response_roundTrip def_DELETE_PROFILE rfl (by decide) mresp hc hs⟩
  | ACTIVATE_PROFILE =>
    obtain rfl : def_ACTIVATE_PROFILE = d := Option.some.inj hd
    exact ⟨fun mreq hc => request_roundTrip def_ACTIVATE_PROFILE (kindName .ACTIVATE_PROFILE)
        rfl rfl rfl (by decide) mreq hc,
      fun mresp hc hs _ => response_roundTrip def_ACTIVATE_PROFILE rfl (by decide) mresp hc hs⟩
  | LOG_VALUES =>
    obtain rfl : def_LOG_VALUES = d := Option.some.inj hd
    refine ⟨fun mreq hc => request_roundTrip def_LOG_VALUES (kindName .LOG_VALUES)
        rfl rfl rfl (by decide) mreq hc, ?_⟩
    intro mresp hc hs he
    obtain ⟨i, hlo, hhi, hm⟩ := logValues_conform_shape mresp hc he
    subst hm
    have h0 : 0 ≤ i := by
      unfold statusNonNeg at hs
      rw [show List.lookup key_errcode [(key_errcode, Val.num i), (key_objects, Val.opt none),
        (key_terminator, Val.num 0)] = some (Val.num i) by simp [List.lookup]] at hs
      simpa using hs
    have hr := logValues_empty_response i h0 hhi
    exact ⟨[i.toNat, 0], hr.1, hr.2⟩
  | RESET =>
    obtain rfl : def_RESET = d := Option.some.inj hd
    exact ⟨fun mreq hc => request_roundTrip def_RESET (kindName .RESET)
        rfl rfl rfl (by decide) mreq hc,
      fun mresp hc hs _ => response_roundTrip def_RESET rfl (by decide) mresp hc hs⟩
  | FREE_SLOT_ROOT =>
    obtain rfl : def_FREE_SLOT_ROOT = d := Option.some.inj hd
    exact ⟨fun mreq hc => request_roundTrip def_FREE_SLOT_ROOT (kindName .FREE_SLOT_ROOT)
        rfl rfl rfl (by decide) mreq hc,
      fun mresp hc hs _ => response_roundTrip def_FREE_SLOT_ROOT rfl (by decide) mresp hc hs⟩
  | UNUSED =>
    exact Option.noConfusion (show (none : Option CommandDefinition) = some d from hd)
  | LIST_PROFILES =>
    obtain rfl : def_LIST_PROFILES = d := Option.some.inj hd
    exact ⟨fun mreq hc => request_roundTrip def_LIST_PROFILES (kindName .LIST_PROFILES)
        rfl rfl rfl (by decide) mreq hc,
      fun mresp hc hs _ => response_roundTrip def_LIST_PROFILES rfl (by decide) mresp hc hs⟩
  | READ_SYSTEM_VALUE =>
    obtain rfl : def_READ_SYSTEM_VALUE = d := Option.some.inj hd
    exact ⟨fun mreq hc => request_roundTrip def_READ_SYSTEM_VALUE (kindName .READ_SYSTEM_VALUE)
        rfl rfl rfl (by decide) mreq hc,
      fun mresp hc hs _ => response_roundTrip def_READ_SYSTEM_VALUE rfl (by decide) mresp hc hs⟩
  | WRITE_SYSTEM_VALUE =>
    obtain rfl : def_WRITE_SYSTEM_VALUE = d := Option.some.inj hd
    exact ⟨fun mreq hc => request_roundTrip def_WRITE_SYSTEM_VALUE (kindName .WRITE_SYSTEM_VALUE)
        rfl rfl rfl (by decide) mreq hc,
      fun mresp hc hs _ => response_roundTrip def_WRITE_SYSTEM_VALUE rfl (by decide) mresp hc hs⟩

/-- Claim C1 counterexample: a conforming LIST_OBJECTS response container with
one object record and status 0 builds successfully, but decoding the built
bytes raises a parse error instead of returning the original container: the
record's greedy data field consumes the 0x00 terminator, so the terminator
check fails. -/
theorem claim_c1_counterexample :
    conformsLayout def_LIST_OBJECTS.response listObjectsOneRecord = true
    ∧ statusNonNeg listObjectsOneRecord = true
    ∧ encoded_response def_LIST_OBJECTS listObjectsOneRecord = some [0, 0, 1, 2, 1, 5, 0]
    ∧ decoded_response def_LIST_OBJECTS [0, 0, 1, 2, 1, 5, 0] = .parseError :=
  ⟨by decide, by decide, rfl, rfl⟩

/-- Witness for the amended C1: the READ_VALUE round trip at concrete request
and response containers. -/
theorem claim_c1_amended_witness :
    (∃ breq, encoded_request def_READ_VALUE readValueRequestSample = some breq ∧
      from_encoded breq = some def_READ_VALUE ∧
      decoded_request def_READ_VALUE breq = some (readValueRequestSample, []))
    ∧ (∃ bresp, encoded_response def_READ_VALUE readValueResponseSample = some bresp ∧
      decoded_response def_READ_VALUE bresp = .ok readValueResponseSample) :=
  ⟨(claim_c1_amended CommandKind.READ_VALUE def_READ_VALUE rfl).1
      readValueRequestSample (by decide),
   (claim_c1_amended CommandKind.READ_VALUE def_READ_VALUE rfl).2
      readValueResponseSample (by decide) (by decide) (by decide)⟩

/-- Any successful parse of a record ending in the greedy data field consumes
every remaining byte. -/
theorem parseRec_last_greedy (rec : List (Option String × Prim))
    (hlast : rec.getLast? = some (some key_data, Prim.greedyBytes)) :
    ∀ (bs : List Nat) (mr : List (String × Val) × List Nat),
      parseRec rec bs = some mr → mr.2 = [] := by
  match rec with
  | [] => simp at hlast
  | [(nameOpt, p)] =>
    intro bs mr h
    have hl : (nameOpt, p) = (some key_data, Prim.greedyBytes) := by simpa using hlast
    have hn := congrArg Prod.fst hl
    have hp := congrArg Prod.snd hl
    simp only at hn hp
    subst hn
    subst hp
    have h3 : (some ([(key_data, Val.bytes bs)], ([] : List Nat)) :
        Option (List (String × Val) × List Nat)) = some mr := h
    rw [← Option.some.inj h3]
  | (nameOpt, p) :: (q1, q2) :: rec3 =>
    intro bs mr h
    have hlast2 : ((q1, q2) :: rec3).getLast? = some (some key_data, Prim.greedyBytes) := by
      rw [← List.getLast?_cons_cons]
      exact hlast
    cases nameOpt with
    | some nm =>
      have h2 : (match parsePrim p bs with
          | none => (none : Option (List (String × Val) × List Nat))
          | some (v, rest) =>
            match parseRec ((q1, q2) :: rec3) rest with
            | none => none
            | some (m, r) => some ((nm, v) :: m, r)) = some mr := h
      rcases h1 : parsePrim p bs with - | ⟨v, rest⟩
      · rw [h1] at h2
        exact Option.noConfusion h2
      · rw [h1] at h2
        have h4 : (match parseRec ((q1, q2) :: rec3) rest with
            | none => (none : Option (List (String × Val) × List Nat))
            | some (m, r) => some ((nm, v) :: m, r)) = some mr := h2
        rcases h3 : parseRec ((q1, q2) :: rec3) rest with - | ⟨m, r⟩
        · rw [h3] at h4
          exact Option.noConfusion h4
        · rw [h3] at h4
          have h5 : (some ((nm, v) :: m, r) :
              Option (List (String × Val) × List Nat)) = some mr := h4
          have hr : r = [] := parseRec_last_greedy ((q1, q2) :: rec3) hlast2 rest (m, r) h3
          rw [← Option.some.inj h5]
          exact hr
    | none =>
      have h2 : (match parsePrim p bs with
          | none => (none : Option (List (String × Val) × List Nat))
          | some (v, rest) =>
            match parseRec ((q1, q2) :: rec3) rest with
            | none => none
            | some (m, r) => some (m, r)) = some mr := h
      rcases h1 : parsePrim p bs with - | ⟨v, rest⟩
      · rw [h1] at h2
        exact Option.noConfusion h2
      · rw [h1] at h2
        have h4 : (match parseRec ((q1, q2) :: rec3) rest with
            | none => (none : Option (List (String × Val) × List Nat))
            | some (m, r) => some (m, r)) = some mr := h2
        rcases h3 : parseRec ((q1, q2) :: rec3) rest with - | ⟨m, r⟩
        · rw [h3] at h4
          exact Option.noConfusion h4
        · rw [h3] at h4
          have h5 : (some (m, r) :
              Option (List (String × Val) × List Nat)) = some mr := h4
          have hr : r = [] := parseRec_last_greedy ((q1, q2) :: rec3) hlast2 rest (m, r) h3
          rw [← Option.some.inj h5]
          exact hr

/-- Claim C5 counterexample: a three-byte LIST_OBJECTS response whose middle
byte is the arbitrary filler 171 parses successfully - so a byte does sit
between the status byte and the terminator - while the claim's own minimal
shape (status byte immediately followed by the 0x00 terminator) fails to
parse. -/
theorem claim_c5_counterexample :
    parseLayout def_LIST_OBJECTS.response [0, 171, 0] =
      some ([(key_errcode, .num 0), (key_objects, .opt none), (key_terminator, .num 0)], [])
    ∧ parseLayout def_LIST_OBJECTS.response [0, 0] = none :=
  ⟨rfl, rfl⟩

/-- Claim C5 amended: a parseable LIST_OBJECTS response consists of exactly the
status byte, then one padding byte whose value is ignored, then the single 0x00
terminator, with no bytes after it and no object records: these are the only
byte strings the response layout accepts, and the object list of the result is
always absent. -/
theorem claim_c5_amended :
    ∀ (bs : List Nat) (out : List (String × Val) × List Nat),
      parseLayout def_LIST_OBJECTS.response bs = some out ↔
      ∃ s p, bs = [s, p, 0] ∧
        out = ([(key_errcode, .num (if s < 128 then (s : Int) else (s : Int) - 256)),
                (key_objects, .opt none), (key_terminator, .num 0)], []) := by
  have hlayout : def_LIST_OBJECTS.response =
      (some key_errcode, FieldCon.prim .int8sb) :: (none, .prim .pad1) ::
        (some key_objects, .optSeqRec listObjectsRecord) ::
        (some key_terminator, .prim (.constByte 0)) :: [(none, .prim .terminated)] := rfl
  intro bs out
  constructor
  · intro h
    match bs, h with
    | [], h =>
      exact Option.noConfusion
        (show (none : Option (List (String × Val) × List Nat)) = some out from h)
    | [b0], h =>
      exact Option.noConfusion
        (show (none : Option (List (String × Val) × List Nat)) = some out from h)
    | b0 :: b1 :: rest2, h =>
      refine ⟨b0, b1, ?_⟩
      rw [hlayout] at h
      have p1 : parseField (.prim Prim.int8sb) (b0 :: b1 :: rest2) =
          some (.num (if b0 < 128 then (b0 : Int) else (b0 : Int) - 256), b1 :: rest2) := rfl
      have p2 : parseField (.prim .pad1) (b1 :: rest2) = some (.num 0, rest2) := rfl
      rcases h3 : parseRec listObjectsRecord rest2 with - | ⟨mrec, rrec⟩
      case some =>
        have hfield : parseField (.optSeqRec listObjectsRecord) rest2 =
            some (.opt (some (.vlist [.map mrec])), rrec) := by
          rw [show parseField (.optSeqRec listObjectsRecord) rest2 =
            (match parseRec listObjectsRecord rest2 with
             | some (m, r) => some (.opt (some (.vlist [.map m])), r)
             | none => some (.opt none, rest2)) from rfl, h3]
        have hr : rrec = [] :=
          parseRec_last_greedy listObjectsRecord rfl rest2 (mrec, rrec) h3
        subst hr
        have p4 : parseField (.prim (.constByte 0)) ([] : List Nat) = none := rfl
        simp only [parseLayout_cons_some, parseLayout_cons_none, p1, p2, hfield, p4] at h
        exact Option.noConfusion h
      case none =>
        have hfield : parseField (.optSeqRec listObjectsRecord) rest2 =
            some (.opt none, rest2) := by
          rw [show parseField (.optSeqRec listObjectsRecord) rest2 =
            (match parseRec listObjectsRecord rest2 with
             | some (m, r) => some (.opt (some (.vlist [.map m])), r)
             | none => some (.opt none, rest2)) from rfl, h3]
        match rest2, h3, h with
        | [], h3, h =>
          have p4 : parseField (.prim (.constByte 0)) ([] : List Nat) = none := rfl
          simp only [parseLayout_cons_some, parseLayout_cons_none, p1, p2, hfield, p4] at h
          exact Option.noConfusion h
        | c :: rest3, h3, h =>
          by_cases hc : c = 0
          · subst hc
            have hfield2 : parseField (.optSeqRec listObjectsRecord) (0 :: rest3) =
                some (.opt none, 0 :: rest3) := by
              rw [show parseField (.optSeqRec listObjectsRecord) (0 :: rest3) =
                (match parseRec listObjectsRecord (0 :: rest3) with
                 | some (m, r) => some (.opt (some (.vlist [.map m])), r)
                 | none => some (.opt none, 0 :: rest3)) from rfl, h3]
            have p4 : parseField (.prim (.constByte 0)) (0 :: rest3) =
                some (.num 0, rest3) := rfl
            match rest3, h with
            | [], h =>
              have p5 : parseField (.prim .terminated) ([] : List Nat) =
                  some (.num 0, []) := rfl
              have p1b : parseField (.prim Prim.int8sb) (b0 :: b1 :: [0]) =
                  some (.num (if b0 < 128 then (b0 : Int) else (b0 : Int) - 256),
                    b1 :: [0]) := rfl
              have p2b : parseField (.prim .pad1) (b1 :: [0]) = some (.num 0, [0]) := rfl
              simp only [parseLayout_cons_some, parseLayout_cons_none, parseLayout_nil,
                p1b, p2b, hfield2, p4, p5, Option.some.injEq] at h
              exact ⟨rfl, h.symm⟩
            | c2 :: rest4, h =>
              have p5 : parseField (.prim .terminated) (c2 :: rest4) = none := rfl
              simp only [parseLayout_cons_some, parseLayout_cons_none, p1, p2, hfield2,
                p4, p5] at h
              exact Option.noConfusion h
          · have p4 : parseField (.prim (.constByte 0)) (c :: rest3) = none := by
              have hb : (c == 0) = false := beq_eq_false_iff_ne.mpr hc
              rw [parseField_prim]
              rw [show parsePrim (.constByte 0) (c :: rest3) =
                (if c == 0 then some (.num ((0 : Nat) : Int), rest3) else none) from rfl]
              rw [hb]
              rfl
            simp only [parseLayout_cons_some, parseLayout_cons_none, p1, p2, hfield,
              p4] at h
            exact Option.noConfusion h
  · intro h
    obtain ⟨s, p, hbs, hout⟩ := h
    subst hbs
    subst hout
    rw [hlayout]
    have p1 : parsePrim .int8sb (s :: [p, 0]) =
        some (.num (if s < 128 then (s : Int) else (s : Int) - 256), [p, 0]) := rfl
    have p2 : parsePrim .pad1 (p :: [0]) = some (.num 0, [0]) := rfl
    have p3 : parseField (.optSeqRec listObjectsRecord) [0] = some (.opt none, [0]) := rfl
    have p4 : parsePrim (.constByte 0) [0] = some (.num 0, []) := rfl
    have p5 : parsePrim .terminated ([] : List Nat) = some (.num 0, []) := rfl
    simp [parseLayout_cons_some, parseLayout_cons_none, parseLayout_nil, parseField_prim,
      p1, p2, p3, p4, p5]

/-! ### Claims about the registry and the Command accessors -/

/-- Claim C3: for any encoded response whose first byte is negative as a signed
status byte, decoded_response yields a failure carrying the command kind and the
numeric code, and the remaining response bytes are never parsed: the result is
the same for every tail of bytes after the status byte. -/
theorem claim_c3 (d : CommandDefinition) (b : Nat) (rest : List Nat)
    (h1 : 128 ≤ b) (h2 : b < 256) :
    decoded_response d (b :: rest) = .failure d.opcode ((b : Int) - 256) := by
  simp only [decoded_response]
  rw [if_neg (show ¬ b < 128 by omega)]
  rw [if_pos (show ((b : Int) - 256 : Int) < 0 by omega)]

/-- Witness for C3: status byte 255 (code -1) on a READ_VALUE response with
trailing garbage. -/
theorem claim_c3_witness :
    decoded_response def_READ_VALUE [255, 7] =
      .failure def_READ_VALUE.opcode ((255 : Int) - 256) :=
  claim_c3 def_READ_VALUE 255 [7] (by decide) (by decide)

/-- Claim C4 counterexample: no CommandDefinition is registered for the UNUSED
kind, so the registry does not cover all 16 kinds. -/
theorem claim_c4_counterexample :
    List.lookup (kindName CommandKind.UNUSED) COMMAND_DEFS = none ∧
      COMMAND_DEFS.length = 15 := by
  decide

/-- Claim C4 amended: a CommandDefinition is registered for each of the fifteen
command kinds other than UNUSED, and for each of those the registry lookup by
kind name and the lookup by decoded opcode byte return that same definition;
UNUSED has no registry entry. -/
theorem claim_c4_amended :
    (∀ k : CommandKind, k ≠ CommandKind.UNUSED →
      ∃ d, List.lookup (kindName k) COMMAND_DEFS = some d ∧
        (opcode_decmapping (opcode_encmapping (kindName k))).bind
          (fun n => List.lookup n COMMAND_DEFS) = some d)
    ∧ List.lookup (kindName CommandKind.UNUSED) COMMAND_DEFS = none := by
  constructor
  · intro k hk
    cases k
    case UNUSED => exact absurd rfl hk
    all_goals exact ⟨_, rfl, rfl⟩
  · decide

/-- Witness for the amended C4 at the READ_VALUE kind. -/
theorem claim_c4_amended_witness :
    ∃ d, List.lookup (kindName CommandKind.READ_VALUE) COMMAND_DEFS = some d ∧
      (opcode_decmapping (opcode_encmapping (kindName CommandKind.READ_VALUE))).bind
        (fun n => List.lookup n COMMAND_DEFS) = some d :=
  claim_c4_amended.1 CommandKind.READ_VALUE (by decide)

/-- Claim C10: from_decoded uppercases the given name; a string whose uppercased
form is the name of a registered kind resolves to that kind's registry entry,
and a string whose uppercased form matches no registered kind resolves to the
KeyError case. -/
theorem claim_c10 :
    (∀ (s : String) (k : CommandKind), k ≠ CommandKind.UNUSED → upperStr s = kindName k →
      from_decoded s = List.lookup (kindName k) COMMAND_DEFS ∧
        (from_decoded s).isSome = true)
    ∧ (∀ s : String, (∀ k : CommandKind, k ≠ CommandKind.UNUSED → upperStr s ≠ kindName k) →
      from_decoded s = none) := by
  constructor
  · intro s k hk h
    have h1 : from_decoded s = List.lookup (kindName k) COMMAND_DEFS := by
      unfold from_decoded
      rw [h]
    refine ⟨h1, ?_⟩
    rw [h1]
    cases k
    case UNUSED => exact absurd rfl hk
    all_goals decide
  · intro s h
    have e1 := beq_eq_false_iff_ne.mpr (h CommandKind.READ_VALUE (by decide))
    have e2 := beq_eq_false_iff_ne.mpr (h CommandKind.WRITE_VALUE (by decide))
    have e3 := beq_eq_false_iff_ne.mpr (h CommandKind.CREATE_OBJECT (by decide))
    have e4 := beq_eq_false_iff_ne.mpr (h CommandKind.DELETE_OBJECT (by decide))
    have e5 := beq_eq_false_iff_ne.mpr (h CommandKind.LIST_OBJECTS (by decide))
    have e6 := beq_eq_false_iff_ne.mpr (h CommandKind.FREE_SLOT (by decide))
    have e7 := beq_eq_false_iff_ne.mpr (h CommandKind.CREATE_PROFILE (by decide))
    have e8 := beq_eq_false_iff_ne.mpr (h CommandKind.DELETE_PROFILE (by decide))
    have e9 := beq_eq_false_iff_ne.mpr (h CommandKind.ACTIVATE_PROFILE (by decide))
    have e10 := beq_eq_false_iff_ne.mpr (h CommandKind.LOG_VALUES (by decide))
    have e11 := beq_eq_false_iff_ne.mpr (h CommandKind.RESET (by decide))
    have e12 := beq_eq_false_iff_ne.mpr (h CommandKind.FREE_SLOT_ROOT (by decide))
    have e13 := beq_eq_false_iff_ne.mpr (h CommandKind.LIST_PROFILES (by decide))
    have e14 := beq_eq_false_iff_ne.mpr (h CommandKind.READ_SYSTEM_VALUE (by decide))
    have e15 := beq_eq_false_iff_ne.mpr (h CommandKind.WRITE_SYSTEM_VALUE (by decide))
    simp [from_decoded, COMMAND_DEFS, List.lookup, e1, e2, e3, e4, e5, e6, e7, e8,
      e9, e10, e11, e12, e13, e14, e15]

/-- Witness for C10 at a lowercase registered name and an unknown name. -/
theorem claim_c10_witness :
    (from_decoded lowercase_read_value =
        List.lookup (kindName CommandKind.READ_VALUE) COMMAND_DEFS
      ∧ (from_decoded lowercase_read_value).isSome = true)
    ∧ from_decoded garbage_name = none :=
  ⟨claim_c10.1 lowercase_read_value CommandKind.READ_VALUE (by decide) (by decide),
   claim_c10.2 garbage_name (by decide)⟩

/-! ### Claims about the serial layer (modelled from the spec) -/

/-- Claim C7: feeding the Stream Framer the ten specified chunks in order
produces exactly the expected events and exactly the expected data lines, in
order, with nothing further emitted: the final fragment has no terminating
newline and stays buffered. -/
theorem claim_c7 :
    (runChunks serial_data).events = expected_events ∧
    (runChunks serial_data).data = expected_data ∧
    (runChunks serial_data).buffer = ("<invalid! event!>" : String).data := by
  refine ⟨?_, ?_, ?_⟩ <;> decide

/-- Claim C8: writing on a Conduit that has never been successfully bound
fails the contract check instead of dropping, queuing or sending the text. -/
theorem claim_c8 (text : String) :
    SparkConduit.init.is_bound = false ∧
      SparkConduit.init.write text = .assertionError :=
  ⟨rfl, rfl⟩

/-- Claim C9: detect_device returns an explicitly given device path unchanged;
otherwise, with a serial number given, it returns the device path of the first
recognized port whose serial number matches, and fails explicitly when no
recognized port matches. -/
theorem claim_c9 :
    (∀ (ports : List PortInfo) (d : String) (sn : Option String),
      detect_device ports (some d) sn = .found d)
    ∧ (∀ (ports : List PortInfo) (sn : String) (p : PortInfo) (rest : List PortInfo),
        ports.filter (fun q => q.serial_number == sn) = p :: rest →
        detect_device ports none (some sn) = .found p.device)
    ∧ (∀ (ports : List PortInfo) (sn : String),
        ports.filter (fun q => q.serial_number == sn) = [] →
        detect_device ports none (some sn) = .valueError) := by
  refine ⟨fun ports d sn => rfl, ?_, ?_⟩
  · intro ports sn p rest hf
    have h2 : detect_device ports none (some sn) =
        (match ports.filter (fun q => q.serial_number == sn) with
         | [] => DetectResult.valueError
         | q :: _ => .found q.device) := rfl
    rw [h2, hf]
  · intro ports sn hf
    have h2 : detect_device ports none (some sn) =
        (match ports.filter (fun q => q.serial_number == sn) with
         | [] => DetectResult.valueError
         | q :: _ => .found q.device) := rfl
    rw [h2, hf]

/-- Witness for C9 at the discovery test's port set: an explicit path, a
matching serial number, and an unmatchable serial number. -/
theorem claim_c9_witness :
    detect_device grep_ports (some dave) none = .found dave
    ∧ detect_device grep_ports none (some serial_4321) = .found port_4321.device
    ∧ detect_device [] none (some serial_4321) = .valueError :=
  ⟨claim_c9.1 grep_ports dave none,
   claim_c9.2.1 grep_ports serial_4321 port_4321 [] rfl,
   claim_c9.2.2 [] serial_4321 rfl⟩

end Brewblox
